import Mathlib

/-!
# Verification of the invoice-management system specification

A shallow embedding of the core logic of the `havelick-solutions-invoice`
repository: date/amount validation utilities, the TSV invoice-line parser,
filename-driven invoice metadata generation, and the persistence layer
(customers, invoices, invoice items) together with the controller
orchestration.  Python strings are modelled as Lean `String`/`List Char`,
Python `float` amounts as exact rationals `ℚ`, the SQLite database as an
explicit record of row lists, and raised exceptions as explicit error
results.
-/

namespace Invoicing

/-- Python exceptions that the modelled code can raise: `ValueError` (also
covering `KeyError`/`TypeError`, which the sources catch together with it)
and `sqlite3.IntegrityError` (uniqueness violations, never caught by the
sources). -/
inductive PyErr where
  | valueError (msg : String)
  | integrityError (msg : String)
deriving DecidableEq, Repr

instance {ε α : Type} [DecidableEq ε] [DecidableEq α] : DecidableEq (Except ε α)
  | .ok a, .ok b =>
    if h : a = b then .isTrue (by rw [h]) else .isFalse (by simp [h])
  | .ok _, .error _ => .isFalse (by simp)
  | .error _, .ok _ => .isFalse (by simp)
  | .error a, .error b =>
    if h : a = b then .isTrue (by rw [h]) else .isFalse (by simp [h])

/-! ## Character and list utilities -/

/-- ASCII decimal digit, as matched by the literal digit alternatives in
CPython `_strptime`'s generated regexes. -/
def isDig (c : Char) : Bool := 48 ≤ c.toNat && c.toNat ≤ 57

/-- Numeric value of an ASCII digit. -/
def digitVal (c : Char) : Nat := c.toNat - 48

/-- Value of a digit string (most significant first). -/
def natOfDigits (l : List Char) : Nat := l.foldl (fun a c => 10 * a + digitVal c) 0

/-- Split a character list on a separator character (Python `str.split(sep)`
semantics: `n` separators yield `n+1` fields, empty fields included). -/
def splitSep (sep : Char) : List Char → List (List Char)
  | [] => [[]]
  | c :: rest =>
    if c = sep then [] :: splitSep sep rest
    else match splitSep sep rest with
      | [] => [[c]]
      | p :: ps => (c :: p) :: ps

/-- Python `str.zfill(w)`: left-pad with zeros to width `w`, keeping a
leading sign character in front of the inserted zeros. -/
def zfill (w : Nat) (l : List Char) : List Char :=
  if w ≤ l.length then l
  else match l with
    | [] => List.replicate w '0'
    | c :: rest =>
      if c = '+' ∨ c = '-' then c :: (List.replicate (w - l.length) '0' ++ rest)
      else List.replicate (w - l.length) '0' ++ (c :: rest)

/-- ASCII whitespace stripped by Python `str.strip()`. -/
def isPySpace (c : Char) : Bool :=
  c = ' ' ∨ c = '\t' ∨ c = '\n' ∨ c = '\r' ∨ c = '\x0b' ∨ c = '\x0c'

/-- Python `str.strip()` on a character list. -/
def pyStripL (l : List Char) : List Char :=
  ((l.dropWhile isPySpace).reverse.dropWhile isPySpace).reverse

/-- Python `str.strip()`. -/
def pyStrip (s : String) : String := ⟨pyStripL s.data⟩

/-- Two-digit zero-padded decimal rendering (`strftime` `%m` / `%d`),
correct for values below 100. -/
def natDigits2 (n : Nat) : List Char :=
  [Nat.digitChar (n / 10 % 10), Nat.digitChar (n % 10)]

/-- Four-digit zero-padded decimal rendering (`strftime` `%Y`), correct for
values below 10000. -/
def natDigits4 (n : Nat) : List Char :=
  [Nat.digitChar (n / 1000 % 10), Nat.digitChar (n / 100 % 10),
   Nat.digitChar (n / 10 % 10), Nat.digitChar (n % 10)]

/-! ## Date model (`application/date_utils.py`, duplicated in
`application/models.py` and `database.py`) -/

/-- A parsed calendar date. -/
structure Date where
  year : Nat
  month : Nat
  day : Nat
deriving DecidableEq, Repr

/-- Gregorian leap year. -/
def isLeapYear (y : Nat) : Bool := (y % 4 = 0 && ¬ y % 100 = 0) || y % 400 = 0

/-- Number of days in a month. -/
def daysInMonth (y m : Nat) : Nat :=
  if m = 2 then (if isLeapYear y then 29 else 28)
  else if m = 4 ∨ m = 6 ∨ m = 9 ∨ m = 11 then 30
  else 31

/-- The month field of `strptime`: 1–2 ASCII digits with value 1–12
(CPython regex `1[0-2]|0[1-9]|[1-9]`). -/
def validMonthField (l : List Char) : Bool :=
  l.all isDig && (l.length = 1 ∨ l.length = 2) && (1 ≤ natOfDigits l && natOfDigits l ≤ 12)

/-- The day field of `strptime`: 1–2 ASCII digits with value 1–31
(CPython regex `3[01]|[12]\d|0[1-9]|[1-9]`); range against the actual month
is checked by the `datetime` constructor afterwards. -/
def validDayField (l : List Char) : Bool :=
  l.all isDig && (l.length = 1 ∨ l.length = 2) && (1 ≤ natOfDigits l && natOfDigits l ≤ 31)

/-- The year field of `strptime`: exactly 4 ASCII digits (CPython regex
`\d\d\d\d`); `datetime` additionally requires year ≥ 1. -/
def validYearField (l : List Char) : Bool :=
  l.all isDig && l.length = 4 && 1 ≤ natOfDigits l

/-- Validity of the day against the month/year, as enforced by the
`datetime` constructor. -/
def validDate (d : Date) : Bool := d.day ≤ daysInMonth d.year d.month

/-- The two `strptime`/`strftime` format strings the repository uses. -/
inductive DateFormat where
  | mdy  -- "%m/%d/%Y"
  | ymd  -- "%Y-%m-%d"
deriving DecidableEq, Repr

/-- `datetime.strptime(s, fmt)` for the two formats in use: split on the
literal separator, check each field's regex shape, then validate the
resulting calendar date. Returns `none` where Python raises `ValueError`. -/
def strptime (fmt : DateFormat) (s : String) : Option Date :=
  match fmt with
  | .mdy =>
    match splitSep '/' s.data with
    | [m, d, y] =>
      if validMonthField m && validDayField d && validYearField y then
        if validDate ⟨natOfDigits y, natOfDigits m, natOfDigits d⟩ then
          some ⟨natOfDigits y, natOfDigits m, natOfDigits d⟩
        else none
      else none
    | _ => none
  | .ymd =>
    match splitSep '-' s.data with
    | [y, m, d] =>
      if validYearField y && validMonthField m && validDayField d then
        if validDate ⟨natOfDigits y, natOfDigits m, natOfDigits d⟩ then
          some ⟨natOfDigits y, natOfDigits m, natOfDigits d⟩
        else none
      else none
    | _ => none

/-- `strftime("%Y-%m-%d")`. -/
def formatYMD (d : Date) : String :=
  ⟨natDigits4 d.year ++ '-' :: natDigits2 d.month ++ '-' :: natDigits2 d.day⟩

/-- `strftime("%m/%d/%Y")`. -/
def formatMDY (d : Date) : String :=
  ⟨natDigits2 d.month ++ '/' :: natDigits2 d.day ++ '/' :: natDigits4 d.year⟩

/-- `parse_date_safely(date_str, date_format)`: parse and convert to
`YYYY-MM-DD` storage form (`none` models the raised `ValueError`). -/
def parse_date_safely (s : String) (fmt : DateFormat := .mdy) : Option String :=
  (strptime fmt s).map formatYMD

/-- `parse_date_to_display(date_str, date_format)`: parse and convert to
`MM/DD/YYYY` display form. -/
def parse_date_to_display (s : String) (fmt : DateFormat := .mdy) : Option String :=
  (strptime fmt s).map formatMDY

/-- The zero-padding of an `M/D/YYYY` string: pad the first two
slash-separated fields to two digits, used to state the round-trip
property "identity modulo zero-padding". -/
def padMDY (s : String) : Option String :=
  match splitSep '/' s.data with
  | [m, d, y] => some ⟨zfill 2 m ++ '/' :: zfill 2 d ++ '/' :: y⟩
  | _ => none

/-- Days strictly before January 1 of year `y` in the proleptic Gregorian
calendar (`datetime.date.toordinal` helper). -/
def daysBeforeYear (y : Nat) : Nat :=
  (y - 1) * 365 + (y - 1) / 4 + (y - 1) / 400 - (y - 1) / 100

/-- Days in year `y` strictly before month `m`. -/
def daysBeforeMonth (y m : Nat) : Nat :=
  (List.range (m - 1)).foldl (fun a i => a + daysInMonth y (i + 1)) 0

/-- `datetime.date.toordinal`: day number with 0001-01-01 ↦ 1. -/
def toOrdinal (d : Date) : Nat := daysBeforeYear d.year + daysBeforeMonth d.year d.month + d.day

/-- Locate the month containing a 0-based day-of-year offset (at most 12
steps). -/
def findMonth (y : Nat) : Nat → Nat → Nat × Nat
  | _, 0 => (12, 31)
  | doy, fuel + 1 =>
    let m := 12 - fuel
    let dim := daysInMonth y m
    if doy < dim then (m, doy + 1) else findMonth y (doy - dim) fuel

/-- `datetime.date.fromordinal`: inverse of `toOrdinal` via the standard
400/100/4/1-year decomposition. -/
def fromOrdinal (n : Nat) : Date :=
  let n0 := n - 1
  let n400 := n0 / 146097
  let r1 := n0 % 146097
  let n100 := min (r1 / 36524) 3
  let r2 := r1 - n100 * 36524
  let n4 := min (r2 / 1461) 24
  let r3 := r2 - n4 * 1461
  let n1 := min (r3 / 365) 3
  let doy := r3 - n1 * 365
  let y := 400 * n400 + 100 * n100 + 4 * n4 + n1 + 1
  let (m, d) := findMonth y doy 12
  ⟨y, m, d⟩

/-- `calculate_due_date(invoice_date_str, days_out)`: parse `MM/DD/YYYY`,
add `days_out` calendar days by `timedelta`, reformat as `MM/DD/YYYY`. -/
def calculate_due_date (s : String) (days_out : Nat := 30) : Option String :=
  (strptime .mdy s).map fun d => formatMDY (fromOrdinal (toOrdinal d + days_out))

/-! ## Amount model (`application/amount_utils.py`, duplicated in
`application/models.py` and `database.py`).  Python `float` values are
modelled as exact rationals; the claims under verification only involve
exactly-representable comparisons (sign tests and equalities between a
parsed decimal string and the same decimal literal), where the rational
model agrees with IEEE semantics. -/

/-- Consume an optional leading sign; returns (negative?, rest). -/
def parseSign : List Char → Bool × List Char
  | '+' :: r => (false, r)
  | '-' :: r => (true, r)
  | l => (false, l)

/-- Split at the first `e`/`E` (exponent marker), if any. -/
def splitExp : List Char → List Char × Option (List Char)
  | [] => ([], none)
  | c :: rest =>
    if c = 'e' ∨ c = 'E' then ([], some rest)
    else
      let (m, e) := splitExp rest
      (c :: m, e)

/-- A parsed decimal value `num / 10 ^ pow10`, kept in integer form so that
concrete runs reduce inside `decide`. -/
structure DecRep where
  num : Int
  pow10 : Nat
deriving DecidableEq, Repr

/-- The rational value of a `DecRep`. -/
def toQ (v : DecRep) : ℚ := (v.num : ℚ) / (10 : ℚ) ^ v.pow10

/-- Unsigned decimal mantissa: digits with at most one point, digits on at
least one side; returns (digit value, number of fractional digits). -/
def parseMantissaRaw (l : List Char) : Option (Nat × Nat) :=
  match splitSep '.' l with
  | [ip] => if ip ≠ [] ∧ ip.all isDig then some (natOfDigits ip, 0) else none
  | [ip, fp] =>
    if (ip ≠ [] ∨ fp ≠ []) ∧ ip.all isDig ∧ fp.all isDig then
      some (natOfDigits (ip ++ fp), fp.length)
    else none
  | _ => none

/-- Exponent part after `e`/`E`: optional sign and digits. -/
def parseExpRaw (l : List Char) : Option (Bool × Nat) :=
  let (neg, r) := parseSign l
  if r ≠ [] ∧ r.all isDig then some (neg, natOfDigits r) else none

/-- Python `float(s)` on finite decimal literals (sign, digits, optional
point, optional exponent; surrounding whitespace tolerated), in integer
form.  `none` models the raised `ValueError`. -/
def pyFloatRaw (s : String) : Option DecRep :=
  let l := pyStripL s.data
  let (neg, r) := parseSign l
  let (mant, expPart) := splitExp r
  match parseMantissaRaw mant with
  | none => none
  | some mk =>
    let scaled : Option (Nat × Nat) :=
      match expPart with
      | none => some mk
      | some e =>
        (parseExpRaw e).map fun p =>
          if p.1 then (mk.1, mk.2 + p.2) else (mk.1 * 10 ^ p.2, mk.2)
    scaled.map fun q => ⟨if neg then -(q.1 : Int) else (q.1 : Int), q.2⟩

/-- Python `float(s)` as an exact rational. -/
def pyFloat (s : String) : Option ℚ := (pyFloatRaw s).map toQ

/-- The cleaning step of `validate_amount`: remove every `$` and `,`, then
strip surrounding whitespace. -/
def cleanAmount (s : String) : String :=
  ⟨pyStripL (s.data.filter fun c => ¬ c = '$' ∧ ¬ c = ',')⟩

/-- `validate_amount(amount)`: clean, parse as float, reject negatives
(`none` models the raised `ValueError`). -/
def validate_amount (s : String) : Option ℚ :=
  match pyFloat (cleanAmount s) with
  | none => none
  | some v => if v < 0 then none else some v

/-! ## TSV invoice-line parser (`application/invoice_parser.py`, duplicated
in `generate_invoice.py`) -/

/-- A successfully parsed invoice line. -/
structure ParsedItem where
  date : String
  description : String
  quantity : ℚ
  rate : ℚ
deriving DecidableEq, Repr

/-- Substring test (Python `pat in s`). -/
def containsSub (pat : List Char) : List Char → Bool
  | [] => decide (pat = [])
  | c :: rest => pat.isPrefixOf (c :: rest) || containsSub pat rest

/-- `_parse_invoice_line(line)`: split on tabs; fewer than four fields is
`ok none` (silently skipped); otherwise validate quantity, amount and date,
deriving `rate = amount / quantity`.  `error` models the raised
`ValueError`, wrapped with the line text as in the source. -/
def _parse_invoice_line (line : String) : Except String (Option ParsedItem) :=
  match splitSep '\t' line.data with
  | p0 :: p1 :: p2 :: p3 :: _ =>
    let wrap : String → Except String (Option ParsedItem) := fun m =>
      .error ("Error parsing invoice line '" ++ pyStrip line ++ "': " ++ m)
    let date_str : String := ⟨pyStripL p0⟩
    let quantity_str : String := ⟨pyStripL p1⟩
    let amount_str : String := ⟨pyStripL p2⟩
    let description : String := ⟨pyStripL p3⟩
    match pyFloat quantity_str with
    | none => wrap ("Invalid quantity '" ++ quantity_str ++ "'")
    | some quantity =>
      if quantity ≤ 0 then
        wrap ("Invalid quantity '" ++ quantity_str ++ "': Quantity must be positive")
      else
        match validate_amount amount_str with
        | none => wrap ("Invalid amount '" ++ amount_str ++ "'")
        | some amount =>
          let rate := if 0 < quantity then amount / quantity else 0
          if containsSub ['/'] date_str.data then
            match parse_date_to_display date_str .mdy with
            | some fd => .ok (some ⟨fd, description, quantity, rate⟩)
            | none =>
              match splitSep '/' date_str.data with
              | [mo, da, yr] =>
                let cand : String := ⟨zfill 2 mo ++ '/' :: zfill 2 da ++ '/' :: yr⟩
                match parse_date_to_display cand .mdy with
                | some _ => .ok (some ⟨cand, description, quantity, rate⟩)
                | none => wrap ("Invalid date '" ++ date_str ++ "'")
              | _ => wrap ("Invalid date '" ++ date_str ++ "'")
          else wrap ("Invalid date '" ++ date_str ++ "'")
  | _ => .ok none

/-- The lines of a file's contents (`readlines`, modulo the retained
newline terminators, which every consumer strips). -/
def linesOf (content : String) : List String :=
  (splitSep '\n' content.data).map fun l => ⟨l⟩

/-- The per-line loop of `parse_invoice_data`: skip blank lines, parse the
rest, accumulate items in order, abort on the first bad line (1-based line
numbers in the error). -/
def parseLines (lineNum : Nat) (ls : List String) (acc : List ParsedItem) :
    Except PyErr (List ParsedItem) :=
  match ls with
  | [] => .ok acc
  | l :: rest =>
    let stripped : String := pyStrip l
    if stripped.data = [] then parseLines (lineNum + 1) rest acc
    else
      match _parse_invoice_line stripped with
      | .error e =>
        .error (.valueError ("Error parsing line " ++ toString lineNum ++ ": " ++ e))
      | .ok none => parseLines (lineNum + 1) rest acc
      | .ok (some it) => parseLines (lineNum + 1) rest (acc ++ [it])

/-- The header-skip offset: 1 when the first line contains both "Date" and
"Hours", else 0. -/
def headerStart : List String → Nat
  | [] => 0
  | h :: _ =>
    if containsSub "Date".data h.data && containsSub "Hours".data h.data then 1 else 0

/-- `parse_invoice_data(filename)` applied to the file's contents: optional
header skip, per-line parsing, and the final no-valid-items check.  The
missing-file branch is out of scope of this model (the contents are passed
directly). -/
def parse_invoice_data (filename content : String) : Except PyErr (List ParsedItem) :=
  match
    parseLines (headerStart (linesOf content) + 1)
      ((linesOf content).drop (headerStart (linesOf content))) [] with
  | .error e => .error e
  | .ok items =>
    if items = [] then
      .error (.valueError ("No valid invoice items found in " ++ filename))
    else .ok items

/-! ## Invoice metadata from filename (`application/models.py`
`generate_invoice_metadata_from_filename`; the same logic is duplicated in
`database.py` and `generate_invoice.py`) -/

/-- Invoice metadata dictionary. -/
structure Metadata where
  invoice_number : String
  invoice_date : String
  due_date : String
deriving DecidableEq, Repr

/-- `os.path.basename`: everything after the last `/`. -/
def basenameL (l : List Char) : List Char :=
  (l.reverse.takeWhile fun c => ¬ c = '/').reverse

/-- `str.startswith` on lists. -/
def startsWithL (pat l : List Char) : Bool := decide (l.take pat.length = pat)

/-- Index of the last `.`, if any. -/
def lastDotIdx (l : List Char) : Option Nat :=
  if '.' ∈ l then some (l.length - 1 - l.reverse.findIdx (fun c => c = '.')) else none

/-- The root part of `os.path.splitext` for a path without separators: cut
at the last dot unless only dots precede it. -/
def splitextRoot (l : List Char) : List Char :=
  match lastDotIdx l with
  | none => l
  | some i => if (l.take i).all (fun c => c = '.') then l else l.take i

/-- Structural worker for `replaceAll`; every recursive call strictly
shortens the list (the pattern is non-empty when consumed), so a fuel of
the list's length is never exhausted. -/
def replaceAllAux (pat rep : List Char) : Nat → List Char → List Char
  | 0, l => l
  | fuel + 1, l =>
    match l with
    | [] => []
    | c :: rest =>
      if ¬ pat = [] ∧ l.take pat.length = pat then
        rep ++ replaceAllAux pat rep fuel (l.drop pat.length)
      else c :: replaceAllAux pat rep fuel rest

/-- Python `str.replace(pat, rep)` (all occurrences, left to right). -/
def replaceAll (pat rep : List Char) (l : List Char) : List Char :=
  replaceAllAux pat rep l.length l

/-- The "Invalid filename format" message. -/
def invalidFilenameMsg (file : String) : String :=
  "Invalid filename format: " ++ file ++ ". Expected format: invoice-data-M-D.txt"

/-- The outer wrapper of metadata generation errors. -/
def wrapMetaErr (m : String) : String := "Error generating invoice metadata: " ++ m

/-- The body of `generate_invoice_metadata_from_filename` inside the outer
`try`, with errors as plain messages.  Note it hard-codes the literal year
2025 in both branches' `invoice_number` and in the pattern branch's
`invoice_date`; only the fallback `invoice_date` uses the current date. -/
def generate_invoice_metadata_core (nowY nowM nowD : Nat) (file : String) :
    Except String Metadata :=
  if startsWithL "invoice-data-".data (splitextRoot (basenameL file.data)) then
    match splitSep '-'
        (replaceAll "invoice-data-".data [] (splitextRoot (basenameL file.data))) with
    | [mo, da] =>
      match calculate_due_date ⟨zfill 2 mo ++ '/' :: zfill 2 da ++ '/' :: "2025".data⟩ 30 with
      | some due =>
        .ok ⟨⟨"2025.".data ++ zfill 2 mo ++ '.' :: zfill 2 da⟩,
          ⟨zfill 2 mo ++ '/' :: zfill 2 da ++ '/' :: "2025".data⟩, due⟩
      | none => .error (invalidFilenameMsg file)
    | _ => .error (invalidFilenameMsg file)
  else
    match calculate_due_date (formatMDY ⟨nowY, nowM, nowD⟩) 30 with
    | some due =>
      .ok ⟨⟨"2025.".data ++ natDigits2 nowM ++ '.' :: natDigits2 nowD⟩,
        formatMDY ⟨nowY, nowM, nowD⟩, due⟩
    | none => .error ("Invalid invoice date format: " ++ formatMDY ⟨nowY, nowM, nowD⟩)

/-- `generate_invoice_metadata_from_filename(invoice_data_file)`, with the
current date passed explicitly (`datetime.now()` in the fallback branch):
the core body plus the outer `except` re-raising every `ValueError` with
the "Error generating invoice metadata" prefix. -/
def generate_invoice_metadata_from_filename (nowY nowM nowD : Nat) (file : String) :
    Except PyErr Metadata :=
  match generate_invoice_metadata_core nowY nowM nowD file with
  | .ok md => .ok md
  | .error m => .error (.valueError (wrapMetaErr m))

/-! ## Persistence layer (`application/models.py`, `application/db.py`,
schema from `database.py` `init_database`).  The SQLite store is modelled
as explicit lists of rows plus the next `INTEGER PRIMARY KEY` values;
`commit` boundaries need no modelling because execution is single-threaded
and every claim observes only final states. -/

/-- A row of the `customers` table (`created_at` omitted: no claim
observes it). -/
structure CustomerRow where
  id : Nat
  name : String
  address : String
deriving DecidableEq, Repr

/-- A row of the `invoices` table. -/
structure InvoiceRow where
  id : Nat
  invoice_number : String
  customer_id : Nat
  vendor_id : Nat
  invoice_date : String
  due_date : String
  total_amount : ℚ
deriving DecidableEq, Repr

/-- A row of the `invoice_items` table. -/
structure ItemRow where
  invoice_id : Nat
  work_date : String
  description : String
  quantity : ℚ
  rate : ℚ
  amount : ℚ
deriving DecidableEq, Repr

/-- The database state: three row lists (the singleton `vendors` table is
static and only referenced through the constant id 1) and the autoincrement
counters. -/
structure DBState where
  customers : List CustomerRow
  invoices : List InvoiceRow
  invoice_items : List ItemRow
  nextCustomerId : Nat
  nextInvoiceId : Nat
deriving DecidableEq, Repr

/-- `HAVELICK_SOLUTIONS_VENDOR_ID`. -/
def HAVELICK_SOLUTIONS_VENDOR_ID : Nat := 1

/-- The freshly initialized database (`init_database`). -/
def initialDB : DBState := ⟨[], [], [], 1, 1⟩

/-- `InvoiceDetails` (`application/models.py`). -/
structure InvoiceDetails where
  invoice_number : String
  customer_id : Nat
  invoice_date : String
  due_date : String
  total_amount : ℚ
deriving DecidableEq, Repr

/-- `LineItem` (`application/models.py`). -/
structure LineItem where
  invoice_id : Nat
  work_date : String
  description : String
  quantity : ℚ
  rate : ℚ
  amount : ℚ
deriving DecidableEq, Repr

namespace Customer

/-- `Customer.create(name, address)`: insert a row, return the new id. -/
def create (db : DBState) (name address : String) : DBState × Nat :=
  let id := db.nextCustomerId
  ({ db with
      customers := db.customers ++ [⟨id, name, address⟩]
      nextCustomerId := id + 1 }, id)

/-- `Customer.get_by_name(name)`: first row with exactly (case-sensitively)
matching name, in storage order. -/
def get_by_name (db : DBState) (name : String) : Option CustomerRow :=
  db.customers.find? fun c => c.name = name

/-- The effect of `UPDATE customers SET address = ? WHERE id = ?`. -/
def updateAddress (db : DBState) (cid : Nat) (address : String) : DBState :=
  { db with
      customers := db.customers.map fun c =>
        if c.id = cid then { c with address := address } else c }

/-- `Customer.upsert(name, address)`: update the address of the existing
row matched by name, or create a new row; return the id. -/
def upsert (db : DBState) (name address : String) : DBState × Nat :=
  match get_by_name db name with
  | some c => (updateAddress db c.id address, c.id)
  | none => create db name address

end Customer

/-- Lookup of a customer row by id (first match in storage order). -/
def getCustomerById (db : DBState) (cid : Nat) : Option CustomerRow :=
  db.customers.find? fun c => c.id = cid

/-- The value of one `client` JSON field: absent key, JSON `null`, or a
string. -/
inductive JField where
  | missing
  | nullv
  | strv (s : String)
deriving DecidableEq, Repr

/-- `client_data.get(key, "") or ""`: the empty string for an absent key,
`null`, or an empty string value. -/
def pyOrEmpty : JField → String
  | .missing => ""
  | .nullv => ""
  | .strv s => s

/-- A client JSON document as consumed by `import_customer_from_json`:
whether the top-level `client` key is present (with an object value), and
the `name`/`address` fields inside it.  Extra keys are ignored by the
source and hence unmodelled. -/
structure ClientJsonInput where
  hasClient : Bool
  name : JField
  address : JField
deriving DecidableEq, Repr

/-- The name `import_customer_from_json` extracts. -/
def jsonNameOf (j : ClientJsonInput) : String :=
  if j.hasClient then pyOrEmpty j.name else ""

/-- The address `import_customer_from_json` extracts. -/
def jsonAddrOf (j : ClientJsonInput) : String :=
  if j.hasClient then pyOrEmpty j.address else ""

/-- `Customer.import_from_json(json_data)` =
`CustomerController.import_customer_from_json(json_data)`: substitute `""`
for missing pieces and upsert; no validation, no error path. -/
def import_customer_from_json (db : DBState) (j : ClientJsonInput) : DBState × Nat :=
  Customer.upsert db (jsonNameOf j) (jsonAddrOf j)

namespace Invoice

/-- The `UNIQUE` constraint message for `invoices.invoice_number`. -/
def uniqueViolationMsg : String := "UNIQUE constraint failed: invoices.invoice_number"

/-- `Invoice.create(details)`: insert a row with the singleton vendor id;
an existing row with the same `invoice_number` makes the insert fail with
`sqlite3.IntegrityError`, leaving the state unchanged. -/
def create (db : DBState) (d : InvoiceDetails) : DBState × Except PyErr Nat :=
  if db.invoices.any fun r => r.invoice_number = d.invoice_number then
    (db, .error (.integrityError uniqueViolationMsg))
  else
    let id := db.nextInvoiceId
    ({ db with
        invoices := db.invoices ++
          [⟨id, d.invoice_number, d.customer_id, HAVELICK_SOLUTIONS_VENDOR_ID,
            d.invoice_date, d.due_date, d.total_amount⟩]
        nextInvoiceId := id + 1 }, .ok id)

end Invoice

/-- `InvoiceItem.add(item)`: insert one `invoice_items` row. -/
def InvoiceItem.add (db : DBState) (it : LineItem) : DBState :=
  { db with
      invoice_items := db.invoice_items ++
        [⟨it.invoice_id, it.work_date, it.description, it.quantity, it.rate, it.amount⟩] }

/-! ## Invoice controller (`application/controllers/invoice_controller.py`;
`import_invoice_from_files` also exists with reordered steps in
`application/models.py`) -/

/-- One entry of the `items` list handed to the controller (a parsed-line
dictionary).  `none` in `quantity`/`rate` models a missing key or a value
failing the `isinstance((int, float))` check. -/
structure ItemInput where
  date : String
  description : String
  quantity : Option ℚ
  rate : Option ℚ
deriving DecidableEq, Repr

/-- A printable stand-in for Python's `f"{item}"` dict interpolation inside
error messages. -/
def itemRepr (it : ItemInput) : String :=
  "item with date " ++ it.date ++ " and description " ++ it.description

/-- The quantity check of `create_invoice`: present, numeric and
strictly positive. -/
def validQuantity (it : ItemInput) : Bool :=
  match it.quantity with
  | none => false
  | some q => 0 < q

/-- The rate check of `create_invoice`: present, numeric and
non-negative. -/
def validRate (it : ItemInput) : Bool :=
  match it.rate with
  | none => false
  | some r => 0 ≤ r

/-- The error message for the first item failing validation. -/
def qrErrMsg (it : ItemInput) : String :=
  if validQuantity it then "Invalid rate for item: " ++ itemRepr it
  else "Invalid quantity for item: " ++ itemRepr it

/-- The validation/total loop at the top of `create_invoice`: walk the
items in order, failing on the first invalid quantity or rate, otherwise
summing `quantity * rate`. -/
def computeTotal (acc : ℚ) : List ItemInput → Except PyErr ℚ
  | [] => .ok acc
  | it :: rest =>
    if ¬ validQuantity it then .error (.valueError (qrErrMsg it))
    else if ¬ validRate it then .error (.valueError (qrErrMsg it))
    else computeTotal (acc + it.quantity.getD 0 * it.rate.getD 0) rest

/-- The total `create_invoice` computes when every item is valid. -/
def sumTotal (items : List ItemInput) : ℚ :=
  items.foldl (fun a it => a + it.quantity.getD 0 * it.rate.getD 0) 0

/-- The message of the `ValueError` raised by `parse_date_safely`. -/
def dateErrMsg (s : String) : String :=
  "Invalid date format: " ++ s ++ ". Expected format: %m/%d/%Y"

/-- The item row `create_invoice` stores for one input item (meaningful
when the item's date parses and quantity/rate are present). -/
def storedItemRow (iid : Nat) (it : ItemInput) : ItemRow :=
  { invoice_id := iid
    work_date := (parse_date_safely it.date).getD ""
    description := it.description
    quantity := it.quantity.getD 0
    rate := it.rate.getD 0
    amount := it.quantity.getD 0 * it.rate.getD 0 }

/-- The item loop at the bottom of `create_invoice`: for each item convert
its date to storage form (raising `ValueError` on failure, with the rows
inserted so far kept — there is no enclosing transaction) and insert the
row with `amount` recomputed as `quantity * rate`. -/
def addItems (db : DBState) (iid : Nat) : List ItemInput → DBState × Except PyErr Nat
  | [] => (db, .ok iid)
  | it :: rest =>
    match parse_date_safely it.date with
    | none => (db, .error (.valueError (dateErrMsg it.date)))
    | some wd =>
      addItems
        (InvoiceItem.add db
          ⟨iid, wd, it.description, it.quantity.getD 0, it.rate.getD 0,
            it.quantity.getD 0 * it.rate.getD 0⟩)
        iid rest

/-- After the invoice-row insert: on success run the item loop, on failure
pass the failure through. -/
def finishInvoice (items : List ItemInput) : DBState × Except PyErr Nat →
    DBState × Except PyErr Nat
  | (db1, .error e) => (db1, .error e)
  | (db1, .ok iid) => addItems db1 iid items

/-- `InvoiceController.create_invoice(customer_id, metadata, items)`:
validate all items and compute the total, build `InvoiceDetails` (parsing
both metadata dates), insert the invoice row, then insert the item rows. -/
def create_invoice (db : DBState) (customer_id : Nat) (md : Metadata)
    (items : List ItemInput) : DBState × Except PyErr Nat :=
  match computeTotal 0 items with
  | .error e => (db, .error e)
  | .ok total =>
    match parse_date_safely md.invoice_date with
    | none => (db, .error (.valueError (dateErrMsg md.invoice_date)))
    | some idate =>
      match parse_date_safely md.due_date with
      | none => (db, .error (.valueError (dateErrMsg md.due_date)))
      | some ddate =>
        finishInvoice items
          (Invoice.create db ⟨md.invoice_number, customer_id, idate, ddate, total⟩)

/-- The wrapper `import_invoice_from_files` applies to `ValueError` (and
`KeyError`/`TypeError`); `sqlite3.IntegrityError` is not caught and
propagates unchanged. -/
def wrapImportErr : PyErr → PyErr
  | .valueError m => .valueError ("Error importing invoice from files: " ++ m)
  | e => e

/-- Apply the `except` wrapper of `import_invoice_from_files` to a
result. -/
def wrapResult : DBState × Except PyErr Nat → DBState × Except PyErr Nat
  | (db1, .error e) => (db1, .error (wrapImportErr e))
  | ok => ok

/-- `InvoiceController.import_invoice_from_files(customer_id,
invoice_data_file, items)`: metadata from the filename, then
`create_invoice`, errors wrapped. -/
def import_invoice_from_files (db : DBState) (customer_id : Nat) (file : String)
    (items : List ItemInput) (nowY nowM nowD : Nat) : DBState × Except PyErr Nat :=
  match generate_invoice_metadata_from_filename nowY nowM nowD file with
  | .error e => (db, .error (wrapImportErr e))
  | .ok md => wrapResult (create_invoice db customer_id md items)

/-- `import_invoice_from_files` as written in `application/models.py`:
same steps, but item validation runs before metadata generation. -/
def models_import_invoice_from_files (db : DBState) (customer_id : Nat) (file : String)
    (items : List ItemInput) (nowY nowM nowD : Nat) : DBState × Except PyErr Nat :=
  match computeTotal 0 items with
  | .error e => (db, .error (wrapImportErr e))
  | .ok total =>
    match generate_invoice_metadata_from_filename nowY nowM nowD file with
    | .error e => (db, .error (wrapImportErr e))
    | .ok md =>
      match parse_date_safely md.invoice_date with
      | none => (db, .error (wrapImportErr (.valueError (dateErrMsg md.invoice_date))))
      | some idate =>
        match parse_date_safely md.due_date with
        | none => (db, .error (wrapImportErr (.valueError (dateErrMsg md.due_date))))
        | some ddate =>
          wrapResult (finishInvoice items
            (Invoice.create db ⟨md.invoice_number, customer_id, idate, ddate, total⟩))

/-! ## `Invoice.get_recent` (spec-modelled) -/

/-- Descending order on invoice dates (SQLite `ORDER BY invoice_date DESC`
on the `YYYY-MM-DD` strings). -/
def dateDesc (a b : InvoiceRow) : Prop := b.invoice_date ≤ a.invoice_date

instance : DecidableRel dateDesc := fun a b =>
  inferInstanceAs (Decidable (b.invoice_date ≤ a.invoice_date))

instance : IsTotal InvoiceRow dateDesc :=
  ⟨fun a b => le_total b.invoice_date a.invoice_date⟩

instance : IsTrans InvoiceRow dateDesc :=
  ⟨fun _ _ _ hab hbc => le_trans hbc hab⟩

/-- Modelled from the spec: `Invoice.get_recent(n)` is called by the
dashboard route and exercised by the unit tests but its definition is
absent from the sources provided; per §4.6 of the spec it "returns the n
most-recent invoices by invoice_date descending (ties broken arbitrarily
by underlying storage order); n=0 returns empty; n greater than available
rows returns all rows". -/
def Invoice.get_recent (db : DBState) (n : Nat) : List InvoiceRow :=
  (db.invoices.insertionSort dateDesc).take n

/-- The state reachable through the exposed mutating operations, starting
from a freshly initialized database. -/
inductive Reachable : DBState → Prop
  | init : Reachable initialDB
  | createCustomer {db} (name address : String) :
      Reachable db → Reachable (Customer.create db name address).1
  | upsertCustomer {db} (name address : String) :
      Reachable db → Reachable (Customer.upsert db name address).1
  | importCustomer {db} (j : ClientJsonInput) :
      Reachable db → Reachable (import_customer_from_json db j).1
  | invoiceCreate {db} (d : InvoiceDetails) :
      Reachable db → Reachable (Invoice.create db d).1
  | itemAdd {db} (it : LineItem) :
      Reachable db → Reachable (InvoiceItem.add db it)
  | createInvoice {db} (cid : Nat) (md : Metadata) (items : List ItemInput) :
      Reachable db → Reachable (create_invoice db cid md items).1
  | importInvoice {db} (cid : Nat) (file : String) (items : List ItemInput)
      (nowY nowM nowD : Nat) :
      Reachable db → Reachable (import_invoice_from_files db cid file items nowY nowM nowD).1
  | importInvoiceModels {db} (cid : Nat) (file : String) (items : List ItemInput)
      (nowY nowM nowD : Nat) :
      Reachable db →
      Reachable (models_import_invoice_from_files db cid file items nowY nowM nowD).1

/-- The uniqueness invariant on invoice numbers. -/
def UniqueInvoiceNumbers (db : DBState) : Prop :=
  db.invoices.Pairwise fun a b => a.invoice_number ≠ b.invoice_number

/-- First index of an item whose `date` fails `parse_date_safely`
(`MM/DD/YYYY`). -/
def firstInvalidDateIdx : List ItemInput → Option Nat
  | [] => none
  | it :: rest =>
    if (parse_date_safely it.date).isNone then some 0
    else (firstInvalidDateIdx rest).map (· + 1)

/-- The first item failing the quantity/rate validation, if any. -/
def firstInvalidQR : List ItemInput → Option ItemInput
  | [] => none
  | it :: rest =>
    if ¬ validQuantity it ∨ ¬ validRate it then some it else firstInvalidQR rest

end Invoicing

namespace Invoicing

example : strptime .mdy "3/15/2025" = some ⟨2025, 3, 15⟩ := by decide
example : strptime .mdy "03/15/2025" = some ⟨2025, 3, 15⟩ := by decide
example : strptime .mdy "02/29/2025" = none := by decide
example : strptime .mdy "02/29/2024" = some ⟨2024, 2, 29⟩ := by decide
example : strptime .mdy "13/01/2025" = none := by decide
example : strptime .mdy "3/15/25" = none := by decide
example : parse_date_safely "3/5/2025" = some "2025-03-05" := by decide
example : parse_date_to_display "3/5/2025" = some "03/05/2025" := by decide
example : parse_date_safely "2025-03-05" .ymd = some "2025-03-05" := by decide
example : calculate_due_date "12/31/2025" 30 = some "01/30/2026" := by decide
example : calculate_due_date "02/15/2024" 30 = some "03/16/2024" := by decide
example : calculate_due_date "03/15/2025" 30 = some "04/14/2025" := by decide

example : pyFloatRaw "4.0" = some ⟨40, 1⟩ := by decide
example : pyFloatRaw "" = none := by decide
example : pyFloatRaw "-1" = some ⟨-1, 0⟩ := by decide
example : pyFloatRaw "1e2" = some ⟨100, 0⟩ := by decide
example : pyFloatRaw "2.5e-1" = some ⟨25, 2⟩ := by decide
example : pyFloatRaw ".5" = some ⟨5, 1⟩ := by decide
example : pyFloatRaw "5." = some ⟨5, 0⟩ := by decide
example : pyFloatRaw "." = none := by decide
example : pyFloatRaw "1.2.3" = none := by decide

example : _parse_invoice_line "3/5/2025\t4.0\t200.00" = .ok none := by decide
example : _parse_invoice_line "" = .ok none := by decide
example : (parse_invoice_data "f.txt" "x\ty\n\n").isOk = false := by decide
example : parse_invoice_data "f.txt" "ab\n\nx\ty\n" =
    .error (.valueError "No valid invoice items found in f.txt") := by decide

example : generate_invoice_metadata_from_filename 2026 10 12 "invoice-data-3-15.txt" =
    .ok ⟨"2025.03.15", "03/15/2025", "04/14/2025"⟩ := by decide
example : generate_invoice_metadata_from_filename 2026 10 12 "other.txt" =
    .ok ⟨"2025.10.12", "10/12/2026", "11/11/2026"⟩ := by decide
example : (generate_invoice_metadata_from_filename 2026 10 12 "invoice-data-x-15.txt").isOk = false := by
  decide

/-! ## Helper lemmas -/

/-- `validate_amount` in integer form, for concrete evaluation: the sign
test on the rational value is the sign test on the numerator. -/
theorem validate_amount_eq_raw (s : String) :
    validate_amount s =
      (pyFloatRaw (cleanAmount s)).bind fun v =>
        if v.num < 0 then none else some (toQ v) := by
  unfold validate_amount pyFloat
  cases h : pyFloatRaw (cleanAmount s) with
  | none => rfl
  | some v =>
    have hpos : (0 : ℚ) < (10 : ℚ) ^ v.pow10 := by positivity
    have hiff : toQ v < 0 ↔ v.num < 0 := by
      unfold toQ
      rw [div_neg_iff]
      constructor
      · rintro (⟨-, h2⟩ | ⟨h1, -⟩)
        · exact absurd h2 (not_lt.mpr hpos.le)
        · exact_mod_cast h1
      · intro hn
        exact Or.inr ⟨by exact_mod_cast hn, hpos⟩
    show (if toQ v < 0 then none else some (toQ v)) =
      if v.num < 0 then none else some (toQ v)
    by_cases hv : v.num < 0
    · rw [if_pos (hiff.mpr hv), if_pos hv]
    · rw [if_neg (fun hlt => hv (hiff.mp hlt)), if_neg hv]

/-! ## Claims -/

/-- C1: the claim states that `generate_invoice_metadata_from_filename`
derives `invoice_number = "<current_year>.<MM>.<DD>"` and
`invoice_date = "<MM>/<DD>/<current_year>"`.  The source hard-codes the
literal year 2025 instead of the current year (spec §9 marks this as a
latent bug): with the current date 2026-10-12, the filename
`invoice-data-3-15.txt` yields `"2025.03.15"` / `"03/15/2025"` /
`"04/14/2025"` and not the claimed `"2026.03.15"` / `"03/15/2026"` /
`"04/14/2026"`. -/
theorem C1_metadata_uses_hardcoded_year :
    generate_invoice_metadata_from_filename 2026 10 12 "invoice-data-3-15.txt" =
      .ok ⟨"2025.03.15", "03/15/2025", "04/14/2025"⟩ ∧
    ¬ generate_invoice_metadata_from_filename 2026 10 12 "invoice-data-3-15.txt" =
      .ok ⟨"2026.03.15", "03/15/2026", "04/14/2026"⟩ := by
  exact ⟨by decide, by decide⟩

/-- C7: `validate_amount` removes `$` and `,`, trims whitespace, parses the
rest as a decimal number and returns it, failing exactly when the cleaned
string is not numeric or the value is negative; zero is valid, and the
spec's concrete examples hold. -/
theorem C7_validate_amount_contract :
    (∀ s v, validate_amount s = some v ↔ pyFloat (cleanAmount s) = some v ∧ 0 ≤ v) ∧
    validate_amount "$1,234.56" = some (123456 / 100) ∧
    validate_amount "0" = some 0 ∧
    validate_amount "-1" = none ∧
    validate_amount "" = none := by
  refine ⟨?_, ?_, ?_, ?_, ?_⟩
  · intro s v
    unfold validate_amount
    cases h : pyFloat (cleanAmount s) with
    | none => simp
    | some w =>
      by_cases hw : w < 0
      · simp only [hw, if_pos]
        constructor
        · intro hc; exact absurd hc (by simp)
        · rintro ⟨hwv, hv⟩
          injection hwv with hwv
          exact absurd (hwv ▸ hw) (not_lt.mpr hv)
      · simp only [hw, if_neg, not_false_iff]
        constructor
        · intro hc; exact ⟨hc, by injection hc with hc; exact hc ▸ not_lt.mp hw⟩
        · exact fun h => h.1
  · rw [validate_amount_eq_raw]
    have h : pyFloatRaw (cleanAmount "$1,234.56") = some ⟨123456, 2⟩ := by decide
    rw [h]
    norm_num [toQ]
  · rw [validate_amount_eq_raw]
    have h : pyFloatRaw (cleanAmount "0") = some ⟨0, 0⟩ := by decide
    rw [h]
    norm_num [toQ]
  · rw [validate_amount_eq_raw]
    have h : pyFloatRaw (cleanAmount "-1") = some ⟨-1, 0⟩ := by decide
    rw [h]
    norm_num
  · rw [validate_amount_eq_raw]
    decide

/-- Witness for C7 (the theorem is hypothesis-free): the contract
instantiated at the input `"0"` and value `0`. -/
theorem C7_witness :
    validate_amount "0" = some 0 ↔ pyFloat (cleanAmount "0") = some 0 ∧ (0 : ℚ) ≤ 0 :=
  C7_validate_amount_contract.1 "0" 0

/-- A line whose tab-split has fewer than four fields parses to `ok none`
(the silent skip). -/
theorem parse_line_short (l : String) (h : (splitSep '\t' l.data).length < 4) :
    _parse_invoice_line l = .ok none := by
  unfold _parse_invoice_line
  cases h0 : splitSep '\t' l.data with
  | nil => rfl
  | cons p0 t0 =>
    cases t0 with
    | nil => rfl
    | cons p1 t1 =>
      cases t1 with
      | nil => rfl
      | cons p2 t2 =>
        cases t2 with
        | nil => rfl
        | cons p3 t3 =>
          rw [h0] at h
          simp only [List.length_cons] at h
          omega

/-- The per-line loop returns its accumulator unchanged when every line is
blank or short. -/
theorem parseLines_skip_all (ls : List String) :
    ∀ n acc,
      (∀ l ∈ ls, (pyStrip l).data = [] ∨ (splitSep '\t' (pyStrip l).data).length < 4) →
      parseLines n ls acc = .ok acc := by
  induction ls with
  | nil => intro n acc _; rfl
  | cons l rest ih =>
    intro n acc hall
    have hl := hall l (List.mem_cons_self l rest)
    unfold parseLines
    rcases hl with h1 | h2
    · rw [if_pos h1]
      exact ih (n + 1) acc fun x hx => hall x (List.mem_cons_of_mem l hx)
    · have hblank : Decidable ((pyStrip l).data = []) := inferInstance
      by_cases hb : (pyStrip l).data = []
      · rw [if_pos hb]
        exact ih (n + 1) acc fun x hx => hall x (List.mem_cons_of_mem l hx)
      · rw [if_neg hb, parse_line_short (pyStrip l) h2]
        exact ih (n + 1) acc fun x hx => hall x (List.mem_cons_of_mem l hx)

/-- C8: lines splitting into fewer than four tab-separated fields are
silently skipped (never an error), and a file consisting solely of blank
and short lines fails with the "no valid items" error rather than a
per-line parse error. -/
theorem C8_short_lines_skipped_no_valid_items :
    (∀ l : String, (splitSep '\t' l.data).length < 4 → _parse_invoice_line l = .ok none) ∧
    (∀ fname content : String, ¬ content = "" →
      (∀ l ∈ linesOf content,
        (pyStrip l).data = [] ∨ (splitSep '\t' (pyStrip l).data).length < 4) →
      parse_invoice_data fname content =
        .error (.valueError ("No valid invoice items found in " ++ fname))) := by
  constructor
  · exact parse_line_short
  · intro fname content _hne hall
    unfold parse_invoice_data
    have hdrop : ∀ start : Nat,
        parseLines (start + 1) ((linesOf content).drop start) [] = .ok [] := by
      intro start
      exact parseLines_skip_all _ (start + 1) []
        fun x hx => hall x (List.mem_of_mem_drop hx)
    rw [hdrop (headerStart (linesOf content))]
    rfl

/-- Witness for C8: a file of one short line, one blank line and one
two-field line yields exactly the no-valid-items error. -/
theorem C8_witness :
    parse_invoice_data "f.txt" "ab\n\nx\ty\n" =
      .error (.valueError ("No valid invoice items found in " ++ "f.txt")) :=
  C8_short_lines_skipped_no_valid_items.2 "f.txt" "ab\n\nx\ty\n" (by decide) (by decide)

/-- The first invalid item found is in the list and is invalid. -/
theorem firstInvalidQR_mem :
    ∀ (items : List ItemInput) (j : ItemInput), firstInvalidQR items = some j →
      j ∈ items ∧ (validQuantity j = false ∨ validRate j = false) := by
  intro items
  induction items with
  | nil => intro j h; simp [firstInvalidQR] at h
  | cons it rest ih =>
    intro j h
    unfold firstInvalidQR at h
    by_cases hc : ¬ validQuantity it = true ∨ ¬ validRate it = true
    · rw [if_pos hc] at h
      injection h with h
      subst h
      refine ⟨List.mem_cons_self _ _, ?_⟩
      rcases hc with hq | hr
      · exact Or.inl (Bool.not_eq_true _ ▸ hq)
      · exact Or.inr (Bool.not_eq_true _ ▸ hr)
    · rw [if_neg hc] at h
      obtain ⟨hm, hv⟩ := ih j h
      exact ⟨List.mem_cons_of_mem it hm, hv⟩

/-- An item with invalid quantity guarantees a first invalid item. -/
theorem exists_firstInvalidQR :
    ∀ items : List ItemInput, (∃ it ∈ items, validQuantity it = false) →
      ∃ j, firstInvalidQR items = some j := by
  intro items
  induction items with
  | nil => rintro ⟨it, hm, -⟩; simp at hm
  | cons hd rest ih =>
    rintro ⟨it, hm, hq⟩
    unfold firstInvalidQR
    by_cases hc : ¬ validQuantity hd = true ∨ ¬ validRate hd = true
    · exact ⟨hd, if_pos hc⟩
    · rw [if_neg hc]
      push_neg at hc
      rcases List.mem_cons.mp hm with rfl | hmem
      · rw [hc.1] at hq; cases hq
      · exact ih ⟨it, hmem, hq⟩

/-- The validation loop fails with the first invalid item's message,
whatever the accumulator. -/
theorem computeTotal_error :
    ∀ (items : List ItemInput) (acc : ℚ) (j : ItemInput),
      firstInvalidQR items = some j →
      computeTotal acc items = .error (.valueError (qrErrMsg j)) := by
  intro items
  induction items with
  | nil => intro acc j h; simp [firstInvalidQR] at h
  | cons it rest ih =>
    intro acc j h
    unfold firstInvalidQR at h
    unfold computeTotal
    by_cases hc : ¬ validQuantity it = true ∨ ¬ validRate it = true
    · rw [if_pos hc] at h
      injection h with h
      subst h
      by_cases hq : ¬ validQuantity it = true
      · rw [if_pos hq]
      · rw [if_neg hq]
        rcases hc with hc | hc
        · exact absurd hc hq
        · rw [if_pos hc]
    · rw [if_neg hc] at h
      push_neg at hc
      rw [if_neg (by rw [hc.1]; simp), if_neg (by rw [hc.2]; simp)]
      exact ih _ j h

/-- Every error of `generate_invoice_metadata_from_filename` is a
`ValueError`. -/
theorem metadata_err_isValueError (nowY nowM nowD : Nat) (file : String) (e : PyErr)
    (h : generate_invoice_metadata_from_filename nowY nowM nowD file = .error e) :
    ∃ m, e = .valueError m := by
  unfold generate_invoice_metadata_from_filename at h
  cases hc : generate_invoice_metadata_core nowY nowM nowD file with
  | ok md => rw [hc] at h; simp at h
  | error m => rw [hc] at h; injection h with h2; exact ⟨_, h2.symm⟩

/-- C3: with any item of non-positive (or missing/non-numeric) quantity in
the input, `create_invoice` fails with a validation error naming an
offending item before any row is written, and both import entry points
fail likewise with the state unchanged. -/
theorem C3_invalid_quantity_fails_before_write :
    ∀ (db : DBState) (cid : Nat) (md : Metadata) (items : List ItemInput),
      (∃ it ∈ items, validQuantity it = false) →
      ((create_invoice db cid md items).1 = db ∧
        ∃ j ∈ items, (validQuantity j = false ∨ validRate j = false) ∧
          (create_invoice db cid md items).2 = .error (.valueError (qrErrMsg j))) ∧
      (∀ file nowY nowM nowD,
        (import_invoice_from_files db cid file items nowY nowM nowD).1 = db ∧
        ∃ m, (import_invoice_from_files db cid file items nowY nowM nowD).2 =
          .error (.valueError m)) ∧
      (∀ file nowY nowM nowD,
        (models_import_invoice_from_files db cid file items nowY nowM nowD).1 = db ∧
        ∃ j ∈ items, (validQuantity j = false ∨ validRate j = false) ∧
          (models_import_invoice_from_files db cid file items nowY nowM nowD).2 =
            .error (.valueError ("Error importing invoice from files: " ++ qrErrMsg j))) := by
  intro db cid md items hex
  obtain ⟨j, hj⟩ := exists_firstInvalidQR items hex
  obtain ⟨hjm, hjv⟩ := firstInvalidQR_mem items j hj
  have hct := computeTotal_error items 0 j hj
  refine ⟨?_, ?_, ?_⟩
  · unfold create_invoice
    rw [hct]
    exact ⟨rfl, j, hjm, hjv, rfl⟩
  · intro file nowY nowM nowD
    unfold import_invoice_from_files
    cases hmeta : generate_invoice_metadata_from_filename nowY nowM nowD file with
    | error e =>
      obtain ⟨m, hm⟩ := metadata_err_isValueError nowY nowM nowD file e hmeta
      subst hm
      exact ⟨rfl, _, rfl⟩
    | ok md2 =>
      unfold create_invoice
      rw [hct]
      exact ⟨rfl, _, rfl⟩
  · intro file nowY nowM nowD
    unfold models_import_invoice_from_files
    rw [hct]
    exact ⟨rfl, j, hjm, hjv, rfl⟩

/-- Witness for C3: a single zero-quantity item makes `create_invoice`
fail with the quantity error, leaving the fresh database untouched. -/
theorem C3_witness :
    (create_invoice initialDB 3 ⟨"2025.03.15", "03/15/2025", "04/14/2025"⟩
        [⟨"03/15/2025", "w", some 0, some 5⟩]).1 = initialDB ∧
    ∃ j ∈ ([⟨"03/15/2025", "w", some 0, some 5⟩] : List ItemInput),
      (validQuantity j = false ∨ validRate j = false) ∧
        (create_invoice initialDB 3 ⟨"2025.03.15", "03/15/2025", "04/14/2025"⟩
            [⟨"03/15/2025", "w", some 0, some 5⟩]).2 =
          .error (.valueError (qrErrMsg j)) :=
  (C3_invalid_quantity_fails_before_write initialDB 3
    ⟨"2025.03.15", "03/15/2025", "04/14/2025"⟩ [⟨"03/15/2025", "w", some 0, some 5⟩]
    ⟨⟨"03/15/2025", "w", some 0, some 5⟩, by decide, by decide⟩).1

/-- Customer operations never touch the `invoices` table. -/
theorem upsert_invoices_eq (db : DBState) (n a : String) :
    (Customer.upsert db n a).1.invoices = db.invoices := by
  unfold Customer.upsert
  cases Customer.get_by_name db n <;> rfl

/-- The item loop never touches the `invoices` table. -/
theorem addItems_invoices_eq :
    ∀ (items : List ItemInput) (db : DBState) (iid : Nat),
      (addItems db iid items).1.invoices = db.invoices := by
  intro items
  induction items with
  | nil => intro db iid; rfl
  | cons it rest ih =>
    intro db iid
    unfold addItems
    cases parse_date_safely it.date with
    | none => rfl
    | some wd => exact ih _ iid

/-- `finishInvoice` only ever adds item rows. -/
theorem finishInvoice_invoices_eq (items : List ItemInput) (p : DBState × Except PyErr Nat) :
    (finishInvoice items p).1.invoices = p.1.invoices := by
  rcases p with ⟨db1, res⟩
  cases res with
  | error e => rfl
  | ok iid => exact addItems_invoices_eq items db1 iid

/-- The import wrapper does not change the state component. -/
theorem wrapResult_fst (p : DBState × Except PyErr Nat) : (wrapResult p).1 = p.1 := by
  rcases p with ⟨db1, res⟩
  cases res with
  | error e => rfl
  | ok iid => rfl

/-- `Invoice.create` preserves pairwise-distinct invoice numbers. -/
theorem invoice_create_unique (db : DBState) (d : InvoiceDetails)
    (h : UniqueInvoiceNumbers db) : UniqueInvoiceNumbers (Invoice.create db d).1 := by
  unfold Invoice.create
  by_cases hdup : (db.invoices.any fun r => r.invoice_number = d.invoice_number) = true
  · rw [if_pos hdup]; exact h
  · rw [if_neg hdup]
    unfold UniqueInvoiceNumbers at h ⊢
    rw [List.pairwise_append]
    refine ⟨h, List.pairwise_singleton _ _, ?_⟩
    intro a ha b hb
    rcases List.mem_singleton.mp hb with rfl
    intro heq
    apply hdup
    rw [List.any_eq_true]
    exact ⟨a, ha, by simp [heq]⟩

/-- `create_invoice` preserves pairwise-distinct invoice numbers. -/
theorem create_invoice_unique (db : DBState) (cid : Nat) (md : Metadata)
    (items : List ItemInput) (h : UniqueInvoiceNumbers db) :
    UniqueInvoiceNumbers (create_invoice db cid md items).1 := by
  unfold create_invoice
  cases computeTotal 0 items with
  | error e => exact h
  | ok total =>
    cases parse_date_safely md.invoice_date with
    | none => exact h
    | some idate =>
      cases parse_date_safely md.due_date with
      | none => exact h
      | some ddate =>
        show UniqueInvoiceNumbers
          (finishInvoice items
            (Invoice.create db ⟨md.invoice_number, cid, idate, ddate, total⟩)).1
        unfold UniqueInvoiceNumbers
        rw [finishInvoice_invoices_eq]
        exact invoice_create_unique db ⟨md.invoice_number, cid, idate, ddate, total⟩ h

/-- `import_invoice_from_files` preserves pairwise-distinct invoice
numbers. -/
theorem import_invoice_unique (db : DBState) (cid : Nat) (file : String)
    (items : List ItemInput) (nowY nowM nowD : Nat) (h : UniqueInvoiceNumbers db) :
    UniqueInvoiceNumbers (import_invoice_from_files db cid file items nowY nowM nowD).1 := by
  unfold import_invoice_from_files
  cases generate_invoice_metadata_from_filename nowY nowM nowD file with
  | error e => exact h
  | ok md =>
    show UniqueInvoiceNumbers (wrapResult (create_invoice db cid md items)).1
    rw [wrapResult_fst]
    exact create_invoice_unique db cid md items h

/-- `models_import_invoice_from_files` preserves pairwise-distinct invoice
numbers. -/
theorem models_import_invoice_unique (db : DBState) (cid : Nat) (file : String)
    (items : List ItemInput) (nowY nowM nowD : Nat) (h : UniqueInvoiceNumbers db) :
    UniqueInvoiceNumbers
      (models_import_invoice_from_files db cid file items nowY nowM nowD).1 := by
  cases h1 : computeTotal 0 items with
  | error e =>
    unfold models_import_invoice_from_files
    simp only [h1]
    exact h
  | ok total =>
    cases h2 : generate_invoice_metadata_from_filename nowY nowM nowD file with
    | error e =>
      unfold models_import_invoice_from_files
      simp only [h1, h2]
      exact h
    | ok md =>
      cases h3 : parse_date_safely md.invoice_date with
      | none =>
        unfold models_import_invoice_from_files
        simp only [h1, h2, h3]
        exact h
      | some idate =>
        cases h4 : parse_date_safely md.due_date with
        | none =>
          unfold models_import_invoice_from_files
          simp only [h1, h2, h3, h4]
          exact h
        | some ddate =>
          unfold models_import_invoice_from_files
          simp only [h1, h2, h3, h4]
          rw [wrapResult_fst]
          unfold UniqueInvoiceNumbers
          rw [finishInvoice_invoices_eq]
          exact invoice_create_unique db ⟨md.invoice_number, cid, idate, ddate, total⟩ h

/-- C4: every reachable database state has pairwise-distinct invoice
numbers, and inserting an invoice whose number already exists fails with
the uniqueness violation, leaving the state unchanged. -/
theorem C4_invoice_number_unique :
    (∀ db, Reachable db → UniqueInvoiceNumbers db) ∧
    (∀ (db : DBState) (d : InvoiceDetails),
      (∃ r ∈ db.invoices, r.invoice_number = d.invoice_number) →
      Invoice.create db d = (db, .error (.integrityError Invoice.uniqueViolationMsg))) := by
  constructor
  · intro db h
    induction h with
    | init => simp [UniqueInvoiceNumbers, initialDB]
    | createCustomer name address _ ih => exact ih
    | upsertCustomer name address _ ih =>
      unfold UniqueInvoiceNumbers
      rw [upsert_invoices_eq]
      exact ih
    | importCustomer j _ ih =>
      unfold UniqueInvoiceNumbers import_customer_from_json
      rw [upsert_invoices_eq]
      exact ih
    | invoiceCreate d _ ih => exact invoice_create_unique _ d ih
    | itemAdd it _ ih => exact ih
    | createInvoice cid md items _ ih => exact create_invoice_unique _ cid md items ih
    | importInvoice cid file items nowY nowM nowD _ ih =>
      exact import_invoice_unique _ cid file items nowY nowM nowD ih
    | importInvoiceModels cid file items nowY nowM nowD _ ih =>
      exact models_import_invoice_unique _ cid file items nowY nowM nowD ih
  · intro db d hex
    unfold Invoice.create
    rw [if_pos ?hc]
    case hc =>
      rw [List.any_eq_true]
      obtain ⟨r, hr, he⟩ := hex
      exact ⟨r, hr, by simp [he]⟩

/-- Witness for C4: the initial state satisfies the invariant, and a
duplicate number is rejected without changing the single stored invoice. -/
theorem C4_witness :
    UniqueInvoiceNumbers initialDB ∧
    Invoice.create
        ⟨[], [⟨1, "2025.03.15", 1, 1, "2025-03-15", "2025-04-14", 100⟩], [], 1, 2⟩
        ⟨"2025.03.15", 1, "2025-03-15", "2025-04-14", 100⟩ =
      (⟨[], [⟨1, "2025.03.15", 1, 1, "2025-03-15", "2025-04-14", 100⟩], [], 1, 2⟩,
        .error (.integrityError Invoice.uniqueViolationMsg)) :=
  ⟨C4_invoice_number_unique.1 initialDB Reachable.init,
    C4_invoice_number_unique.2
      ⟨[], [⟨1, "2025.03.15", 1, 1, "2025-03-15", "2025-04-14", 100⟩], [], 1, 2⟩
      ⟨"2025.03.15", 1, "2025-03-15", "2025-04-14", 100⟩
      ⟨⟨1, "2025.03.15", 1, 1, "2025-03-15", "2025-04-14", 100⟩, by decide, by decide⟩⟩

/-- `find?` skips a first block in which it found nothing. -/
theorem find?_append_none {α : Type} (p : α → Bool) (l1 l2 : List α)
    (h : l1.find? p = none) : (l1 ++ l2).find? p = l2.find? p := by
  induction l1 with
  | nil => rfl
  | cons hd tl ih =>
    by_cases hp : p hd = true
    · rw [List.find?_cons_of_pos _ hp] at h
      cases h
    · rw [List.find?_cons_of_neg _ hp] at h
      rw [List.cons_append, List.find?_cons_of_neg _ hp]
      exact ih h

/-- Updating the address of the row found by name leaves it the first
name-match, now carrying the new address. -/
theorem find_name_after_update (l : List CustomerRow) (n a : String) (c : CustomerRow)
    (h : l.find? (fun r => r.name = n) = some c) :
    (l.map fun r => if r.id = c.id then { r with address := a } else r).find?
      (fun r => r.name = n) = some { c with address := a } := by
  induction l with
  | nil => cases h
  | cons hd tl ih =>
    by_cases hp : hd.name = n
    · rw [List.find?_cons_of_pos _ (by simp [hp])] at h
      injection h with h
      subst h
      rw [List.map_cons, if_pos rfl]
      exact List.find?_cons_of_pos _ (by simp [hp])
    · rw [List.find?_cons_of_neg _ (by simp [hp])] at h
      rw [List.map_cons, List.find?_cons_of_neg _ ?hneg]
      · exact ih h
      case hneg =>
        by_cases hid : hd.id = c.id
        · rw [if_pos hid]; simp [hp]
        · rw [if_neg hid]; simp [hp]

/-- After updating every row with the given id, the first row found by
that id carries the new address. -/
theorem find_id_after_update (l : List CustomerRow) (i : Nat) (a : String)
    (h : ∃ r ∈ l, r.id = i) :
    ∃ c, (l.map fun r => if r.id = i then { r with address := a } else r).find?
        (fun r => r.id = i) = some c ∧ c.address = a ∧ c.id = i := by
  induction l with
  | nil =>
    obtain ⟨r, hr, -⟩ := h
    cases hr
  | cons hd tl ih =>
    by_cases hp : hd.id = i
    · refine ⟨{ hd with address := a }, ?_, rfl, hp⟩
      rw [List.map_cons, if_pos hp]
      exact List.find?_cons_of_pos _ (by simp [hp])
    · rw [List.map_cons, if_neg hp]
      obtain ⟨r, hr, hri⟩ := h
      rcases List.mem_cons.mp hr with rfl | hmem
      · exact absurd hri hp
      · obtain ⟨c, hc, hca, hci⟩ := ih ⟨r, hmem, hri⟩
        exact ⟨c, by rw [List.find?_cons_of_neg _ (by simp [hp])]; exact hc, hca, hci⟩

/-- After an upsert, looking the name up finds exactly the upserted id,
name and address. -/
theorem upsert_get_by_name (db : DBState) (n a : String) :
    Customer.get_by_name (Customer.upsert db n a).1 n =
      some ⟨(Customer.upsert db n a).2, n, a⟩ := by
  cases h : Customer.get_by_name db n with
  | some c =>
    have hfind : db.customers.find? (fun r => r.name = n) = some c := h
    have hcn : c.name = n := by
      have := List.find?_some hfind
      simpa using this
    have hc : Customer.upsert db n a = (Customer.updateAddress db c.id a, c.id) := by
      unfold Customer.upsert
      rw [h]
    rw [hc]
    have := find_name_after_update db.customers n a c hfind
    show (db.customers.map fun r : CustomerRow =>
        if r.id = c.id then { r with address := a } else r).find?
        (fun r => r.name = n) = some (⟨c.id, n, a⟩ : CustomerRow)
    rw [this]
    cases c
    simp only at hcn
    rw [hcn]
  | none =>
    have hfind : db.customers.find? (fun r => r.name = n) = none := h
    have hc : Customer.upsert db n a = Customer.create db n a := by
      unfold Customer.upsert
      rw [h]
    rw [hc]
    show (db.customers ++ [(⟨db.nextCustomerId, n, a⟩ : CustomerRow)]).find?
        (fun r => r.name = n) = some (⟨db.nextCustomerId, n, a⟩ : CustomerRow)
    rw [find?_append_none _ _ _ hfind]
    exact List.find?_cons_of_pos _ (by simp)

/-- C5: two upserts with the same name return the same id, and afterwards
the row stored under that id carries the second address (name matching is
the exact, case-sensitive string equality used by `get_by_name`). -/
theorem C5_upsert_twice_same_id_last_address :
    ∀ (db : DBState) (name a1 a2 : String),
      (Customer.upsert (Customer.upsert db name a1).1 name a2).2 =
        (Customer.upsert db name a1).2 ∧
      ∃ c, getCustomerById (Customer.upsert (Customer.upsert db name a1).1 name a2).1
          (Customer.upsert db name a1).2 = some c ∧
        c.address = a2 ∧ c.id = (Customer.upsert db name a1).2 := by
  intro db name a1 a2
  rcases hu1 : Customer.upsert db name a1 with ⟨db1, i1⟩
  have h1 : Customer.get_by_name db1 name = some ⟨i1, name, a1⟩ := by
    have := upsert_get_by_name db name a1
    rw [hu1] at this
    exact this
  have h2 : Customer.upsert db1 name a2 = (Customer.updateAddress db1 i1 a2, i1) := by
    unfold Customer.upsert
    rw [h1]
  show (Customer.upsert db1 name a2).2 = i1 ∧
    ∃ c, getCustomerById (Customer.upsert db1 name a2).1 i1 = some c ∧
      c.address = a2 ∧ c.id = i1
  rw [h2]
  refine ⟨rfl, ?_⟩
  have hmem : (⟨i1, name, a1⟩ : CustomerRow) ∈ db1.customers :=
    List.mem_of_find?_eq_some h1
  obtain ⟨c, hc, hca, hci⟩ := find_id_after_update db1.customers i1 a2 ⟨_, hmem, rfl⟩
  exact ⟨c, hc, hca, hci⟩

/-- Witness for C5 (the theorem is hypothesis-free): instantiates the two
upserts on the fresh database. -/
theorem C5_witness :
    (Customer.upsert (Customer.upsert initialDB "Acme" "a1").1 "Acme" "a2").2 =
      (Customer.upsert initialDB "Acme" "a1").2 ∧
    ∃ c, getCustomerById (Customer.upsert (Customer.upsert initialDB "Acme" "a1").1
          "Acme" "a2").1 (Customer.upsert initialDB "Acme" "a1").2 = some c ∧
      c.address = "a2" ∧ c.id = (Customer.upsert initialDB "Acme" "a1").2 :=
  C5_upsert_twice_same_id_last_address initialDB "Acme" "a1" "a2"

/-- C10: `import_customer_from_json` performs no validation: for any
client JSON shape it substitutes `""` for a missing `client` object and
for missing/null/empty `name` and `address` fields, upserts, and the
upserted row is stored under the returned id with exactly those values. -/
theorem C10_import_customer_no_validation :
    ∀ (db : DBState) (j : ClientJsonInput),
      Customer.get_by_name (import_customer_from_json db j).1 (jsonNameOf j) =
        some ⟨(import_customer_from_json db j).2, jsonNameOf j, jsonAddrOf j⟩ ∧
      ((j.hasClient = false ∨ j.name = .missing ∨ j.name = .nullv ∨ j.name = .strv "") →
        jsonNameOf j = "") ∧
      ((j.hasClient = false ∨ j.address = .missing ∨ j.address = .nullv ∨
          j.address = .strv "") →
        jsonAddrOf j = "") := by
  intro db j
  refine ⟨upsert_get_by_name db (jsonNameOf j) (jsonAddrOf j), ?_, ?_⟩
  · rintro (hf | hn | hn | hn)
    · simp [jsonNameOf, hf]
    · simp [jsonNameOf, hn, pyOrEmpty]
    · simp [jsonNameOf, hn, pyOrEmpty]
    · simp [jsonNameOf, hn, pyOrEmpty]
  · rintro (hf | hn | hn | hn)
    · simp [jsonAddrOf, hf]
    · simp [jsonAddrOf, hn, pyOrEmpty]
    · simp [jsonAddrOf, hn, pyOrEmpty]
    · simp [jsonAddrOf, hn, pyOrEmpty]

/-- Witness for C10: importing `{}` (no `client` key) creates a customer
with empty name and address and returns its id. -/
theorem C10_witness :
    Customer.get_by_name (import_customer_from_json initialDB ⟨false, .missing, .missing⟩).1
        (jsonNameOf ⟨false, .missing, .missing⟩) =
      some ⟨(import_customer_from_json initialDB ⟨false, .missing, .missing⟩).2,
        jsonNameOf ⟨false, .missing, .missing⟩, jsonAddrOf ⟨false, .missing, .missing⟩⟩ :=
  (C10_import_customer_no_validation initialDB ⟨false, .missing, .missing⟩).1

/-- With every item valid, the validation loop returns the running sum. -/
theorem computeTotal_ok :
    ∀ (items : List ItemInput) (acc : ℚ),
      (∀ it ∈ items, validQuantity it = true ∧ validRate it = true) →
      computeTotal acc items =
        .ok (items.foldl (fun a it => a + it.quantity.getD 0 * it.rate.getD 0) acc) := by
  intro items
  induction items with
  | nil => intro acc _; rfl
  | cons it rest ih =>
    intro acc hall
    obtain ⟨hq, hr⟩ := hall it (List.mem_cons_self it rest)
    unfold computeTotal
    rw [if_neg (by rw [hq]; simp), if_neg (by rw [hr]; simp)]
    rw [List.foldl_cons]
    exact ih _ fun x hx => hall x (List.mem_cons_of_mem it hx)

/-- The first bad-date index is within bounds. -/
theorem firstInvalidDateIdx_lt :
    ∀ (items : List ItemInput) (k : Nat),
      firstInvalidDateIdx items = some k → k < items.length := by
  intro items
  induction items with
  | nil => intro k h; cases h
  | cons it rest ih =>
    intro k h
    unfold firstInvalidDateIdx at h
    by_cases hd : (parse_date_safely it.date).isNone = true
    · rw [if_pos hd] at h
      injection h with h
      subst h
      simp
    · rw [if_neg hd] at h
      obtain ⟨k', hk', rfl⟩ := Option.map_eq_some'.mp h
      have := ih k' hk'
      simp only [List.length_cons]
      omega

/-- The item loop up to the first invalid date: the preceding rows are
inserted, then the date error aborts the loop. -/
theorem addItems_first_bad :
    ∀ (items : List ItemInput) (db : DBState) (iid : Nat) (k : Nat),
      firstInvalidDateIdx items = some k →
      (addItems db iid items).1 =
        { db with invoice_items :=
            db.invoice_items ++ (items.take k).map (storedItemRow iid) } ∧
      ∃ e, (addItems db iid items).2 = .error (.valueError e) := by
  intro items
  induction items with
  | nil => intro db iid k h; cases h
  | cons it rest ih =>
    intro db iid k h
    unfold firstInvalidDateIdx at h
    by_cases hd : (parse_date_safely it.date).isNone = true
    · rw [if_pos hd] at h
      injection h with h
      subst h
      have hnone : parse_date_safely it.date = none := Option.isNone_iff_eq_none.mp hd
      unfold addItems
      rw [hnone]
      exact ⟨by simp, _, rfl⟩
    · rw [if_neg hd] at h
      obtain ⟨k', hk', rfl⟩ := Option.map_eq_some'.mp h
      have hsome : ∃ wd, parse_date_safely it.date = some wd := by
        cases hx : parse_date_safely it.date with
        | none => rw [hx] at hd; exact absurd rfl hd
        | some wd => exact ⟨wd, rfl⟩
      obtain ⟨wd, hwd⟩ := hsome
      unfold addItems
      rw [hwd]
      obtain ⟨ih1, ih2⟩ := ih
        (InvoiceItem.add db
          ⟨iid, wd, it.description, it.quantity.getD 0, it.rate.getD 0,
            it.quantity.getD 0 * it.rate.getD 0⟩) iid k' hk'
      refine ⟨?_, ih2⟩
      rw [ih1]
      simp only [InvoiceItem.add, List.take_succ_cons, List.map_cons, storedItemRow, hwd,
        Option.getD_some, List.append_assoc, List.singleton_append]

/-- C9: when every item passes the quantity/rate validation, the metadata
dates parse and the invoice number is fresh, but some item's date is not a
valid `MM/DD/YYYY` string, `create_invoice` persists the invoice row and
exactly the item rows preceding the first offending item — a strict prefix
of the input — and then raises the date validation error. -/
theorem C9_create_invoice_partial_write_on_bad_item_date :
    ∀ (db : DBState) (cid : Nat) (md : Metadata) (items : List ItemInput)
      (k : Nat) (idate ddate : String),
      (∀ it ∈ items, validQuantity it = true ∧ validRate it = true) →
      firstInvalidDateIdx items = some k →
      parse_date_safely md.invoice_date = some idate →
      parse_date_safely md.due_date = some ddate →
      (db.invoices.any fun r => r.invoice_number = md.invoice_number) = false →
      (create_invoice db cid md items).1.invoices =
        db.invoices ++
          [⟨db.nextInvoiceId, md.invoice_number, cid, HAVELICK_SOLUTIONS_VENDOR_ID,
            idate, ddate, sumTotal items⟩] ∧
      (create_invoice db cid md items).1.invoice_items =
        db.invoice_items ++ (items.take k).map (storedItemRow db.nextInvoiceId) ∧
      k < items.length ∧
      ∃ e, (create_invoice db cid md items).2 = .error (.valueError e) := by
  intro db cid md items k idate ddate hvalid hbad hidate hddate hdup
  have hct : computeTotal 0 items = .ok (sumTotal items) := computeTotal_ok items 0 hvalid
  have hnot : ¬ ((db.invoices.any fun r => r.invoice_number = md.invoice_number) = true) := by
    rw [hdup]; simp
  have hcre : Invoice.create db ⟨md.invoice_number, cid, idate, ddate, sumTotal items⟩ =
      ({ db with
          invoices := db.invoices ++
            [⟨db.nextInvoiceId, md.invoice_number, cid, HAVELICK_SOLUTIONS_VENDOR_ID,
              idate, ddate, sumTotal items⟩]
          nextInvoiceId := db.nextInvoiceId + 1 }, .ok db.nextInvoiceId) := by
    unfold Invoice.create
    rw [if_neg hnot]
  have heq : create_invoice db cid md items =
      addItems
        { db with
            invoices := db.invoices ++
              [⟨db.nextInvoiceId, md.invoice_number, cid, HAVELICK_SOLUTIONS_VENDOR_ID,
                idate, ddate, sumTotal items⟩]
            nextInvoiceId := db.nextInvoiceId + 1 }
        db.nextInvoiceId items := by
    unfold create_invoice
    simp only [hct, hidate, hddate]
    rw [hcre]
    rfl
  rw [heq]
  obtain ⟨ha1, ha2⟩ := addItems_first_bad items
    { db with
        invoices := db.invoices ++
          [⟨db.nextInvoiceId, md.invoice_number, cid, HAVELICK_SOLUTIONS_VENDOR_ID,
            idate, ddate, sumTotal items⟩]
        nextInvoiceId := db.nextInvoiceId + 1 }
    db.nextInvoiceId k hbad
  rw [ha1]
  exact ⟨rfl, rfl, firstInvalidDateIdx_lt items k hbad, ha2⟩

/-- Witness for C9: one valid item with an unparseable date leaves a
persisted invoice with zero item rows (the strict prefix of length 0) and
the raised error. -/
theorem C9_witness :
    (create_invoice initialDB 7 ⟨"2025.03.15", "03/15/2025", "04/14/2025"⟩
        [⟨"bad", "w", some 1, some 55⟩]).1.invoices =
      initialDB.invoices ++
        [⟨initialDB.nextInvoiceId, "2025.03.15", 7, HAVELICK_SOLUTIONS_VENDOR_ID,
          "2025-03-15", "2025-04-14", sumTotal [⟨"bad", "w", some 1, some 55⟩]⟩] ∧
    (create_invoice initialDB 7 ⟨"2025.03.15", "03/15/2025", "04/14/2025"⟩
        [⟨"bad", "w", some 1, some 55⟩]).1.invoice_items =
      initialDB.invoice_items ++
        (([⟨"bad", "w", some 1, some 55⟩] : List ItemInput).take 0).map
          (storedItemRow initialDB.nextInvoiceId) ∧
    0 < ([⟨"bad", "w", some 1, some 55⟩] : List ItemInput).length ∧
    ∃ e, (create_invoice initialDB 7 ⟨"2025.03.15", "03/15/2025", "04/14/2025"⟩
        [⟨"bad", "w", some 1, some 55⟩]).2 = .error (.valueError e) :=
  C9_create_invoice_partial_write_on_bad_item_date initialDB 7
    ⟨"2025.03.15", "03/15/2025", "04/14/2025"⟩ [⟨"bad", "w", some 1, some 55⟩]
    0 "2025-03-15" "2025-04-14" (by decide) (by decide) (by decide) (by decide) (by decide)

/-- C2: `Invoice.get_recent(n)` (modelled from the spec, the definition
being absent from the sources) returns `min n count` invoices drawn from
the stored ones ordered by `invoice_date` descending; `n = 0` yields the
empty list, `n ≥ count` yields exactly all stored invoices (still
descending), and every returned invoice is at least as recent as every
invoice left out. -/
theorem C2_get_recent_spec :
    ∀ (db : DBState) (n : Nat),
      (Invoice.get_recent db n).length = min n db.invoices.length ∧
      List.Sorted dateDesc (Invoice.get_recent db n) ∧
      List.Subperm (Invoice.get_recent db n) db.invoices ∧
      (n = 0 → Invoice.get_recent db n = []) ∧
      (db.invoices.length ≤ n → (Invoice.get_recent db n).Perm db.invoices) ∧
      (∀ x ∈ Invoice.get_recent db n,
        ∀ y ∈ (db.invoices.insertionSort dateDesc).drop n, dateDesc x y) := by
  intro db n
  have hperm := List.perm_insertionSort dateDesc db.invoices
  have hsorted := List.sorted_insertionSort dateDesc db.invoices
  refine ⟨?_, ?_, ?_, ?_, ?_, ?_⟩
  · unfold Invoice.get_recent
    rw [List.length_take, hperm.length_eq]
  · exact List.Pairwise.sublist (List.take_sublist n _) hsorted
  · exact ((List.take_sublist n _).subperm).trans hperm.subperm
  · intro h0
    subst h0
    unfold Invoice.get_recent
    exact List.take_zero _
  · intro hle
    unfold Invoice.get_recent
    rw [List.take_of_length_le (by rw [hperm.length_eq]; exact hle)]
    exact hperm
  · intro x hx y hy
    have hsplit := (List.take_append_drop n (db.invoices.insertionSort dateDesc)).symm
    have hall := hsorted
    rw [List.Sorted, hsplit, List.pairwise_append] at hall
    exact hall.2.2 x hx y hy

/-- Witness for C2 (the theorem is hypothesis-free): instantiates
`get_recent` with a limit exceeding the two stored invoices. -/
theorem C2_witness :
    (Invoice.get_recent ⟨[], [⟨1, "A", 1, 1, "2025-03-15", "2025-04-14", 10⟩,
        ⟨2, "B", 1, 1, "2025-03-20", "2025-04-19", 20⟩], [], 1, 3⟩ 3).length =
      min 3 ([⟨1, "A", 1, 1, "2025-03-15", "2025-04-14", 10⟩,
        ⟨2, "B", 1, 1, "2025-03-20", "2025-04-19", 20⟩] : List InvoiceRow).length ∧
    List.Sorted dateDesc (Invoice.get_recent ⟨[], [⟨1, "A", 1, 1, "2025-03-15",
        "2025-04-14", 10⟩, ⟨2, "B", 1, 1, "2025-03-20", "2025-04-19", 20⟩], [], 1, 3⟩ 3) ∧
    List.Subperm (Invoice.get_recent ⟨[], [⟨1, "A", 1, 1, "2025-03-15", "2025-04-14", 10⟩,
        ⟨2, "B", 1, 1, "2025-03-20", "2025-04-19", 20⟩], [], 1, 3⟩ 3)
      ([⟨1, "A", 1, 1, "2025-03-15", "2025-04-14", 10⟩,
        ⟨2, "B", 1, 1, "2025-03-20", "2025-04-19", 20⟩] : List InvoiceRow) ∧
    ((3 : Nat) = 0 → Invoice.get_recent ⟨[], [⟨1, "A", 1, 1, "2025-03-15", "2025-04-14", 10⟩,
        ⟨2, "B", 1, 1, "2025-03-20", "2025-04-19", 20⟩], [], 1, 3⟩ 3 = []) ∧
    (([⟨1, "A", 1, 1, "2025-03-15", "2025-04-14", 10⟩,
        ⟨2, "B", 1, 1, "2025-03-20", "2025-04-19", 20⟩] : List InvoiceRow).length ≤ 3 →
      (Invoice.get_recent ⟨[], [⟨1, "A", 1, 1, "2025-03-15", "2025-04-14", 10⟩,
        ⟨2, "B", 1, 1, "2025-03-20", "2025-04-19", 20⟩], [], 1, 3⟩ 3).Perm
        ([⟨1, "A", 1, 1, "2025-03-15", "2025-04-14", 10⟩,
          ⟨2, "B", 1, 1, "2025-03-20", "2025-04-19", 20⟩] : List InvoiceRow)) ∧
    (∀ x ∈ Invoice.get_recent ⟨[], [⟨1, "A", 1, 1, "2025-03-15", "2025-04-14", 10⟩,
        ⟨2, "B", 1, 1, "2025-03-20", "2025-04-19", 20⟩], [], 1, 3⟩ 3,
      ∀ y ∈ (([⟨1, "A", 1, 1, "2025-03-15", "2025-04-14", 10⟩,
          ⟨2, "B", 1, 1, "2025-03-20", "2025-04-19", 20⟩] :
            List InvoiceRow).insertionSort dateDesc).drop 3, dateDesc x y) :=
  C2_get_recent_spec ⟨[], [⟨1, "A", 1, 1, "2025-03-15", "2025-04-14", 10⟩,
    ⟨2, "B", 1, 1, "2025-03-20", "2025-04-19", 20⟩], [], 1, 3⟩ 3

/-- A digit character's value is at most 9. -/
theorem digitVal_le (c : Char) (h : isDig c = true) : digitVal c ≤ 9 := by
  simp only [isDig, Bool.and_eq_true, decide_eq_true_eq] at h
  unfold digitVal
  omega

/-- A digit's character round-trips through its value. -/
theorem digitChar_digitVal (c : Char) (h : isDig c = true) :
    Nat.digitChar (digitVal c) = c := by
  simp only [isDig, Bool.and_eq_true, decide_eq_true_eq] at h
  obtain ⟨h1, h2⟩ := h
  show Nat.digitChar (c.toNat - 48) = c
  have hc : c = Char.ofNat c.toNat := (Char.ofNat_toNat c).symm
  rw [hc]
  generalize c.toNat = k at h1 h2 ⊢
  interval_cases k <;> decide

/-- Values below ten print as digit characters. -/
theorem isDig_digitChar (k : Nat) (h : k ≤ 9) : isDig (Nat.digitChar k) = true := by
  interval_cases k <;> decide

/-- A digit character's value recovers the value. -/
theorem digitVal_digitChar (k : Nat) (h : k ≤ 9) : digitVal (Nat.digitChar k) = k := by
  interval_cases k <;> decide

/-- Digit characters are none of the separator/sign characters. -/
theorem isDig_ne (c x : Char) (hx : isDig x = false) (h : isDig c = true) : ¬ c = x := by
  intro he
  rw [he] at h
  rw [h] at hx
  cases hx

/-- One-digit strings. -/
theorem natOfDigits_one (a : Char) : natOfDigits [a] = digitVal a := by
  simp [natOfDigits]

/-- Two-digit strings. -/
theorem natOfDigits_two (a b : Char) :
    natOfDigits [a, b] = 10 * digitVal a + digitVal b := by
  simp [natOfDigits]

/-- Four-digit strings. -/
theorem natOfDigits_four (a b c d : Char) :
    natOfDigits [a, b, c, d] =
      1000 * digitVal a + 100 * digitVal b + 10 * digitVal c + digitVal d := by
  simp [natOfDigits]
  omega

/-- All characters of a two-digit rendering are digits. -/
theorem natDigits2_mem_dig (n : Nat) : ∀ c ∈ natDigits2 n, isDig c = true := by
  intro c hc
  unfold natDigits2 at hc
  simp only [List.mem_cons, List.mem_singleton, List.not_mem_nil, or_false] at hc
  rcases hc with rfl | rfl
  · exact isDig_digitChar _ (by omega)
  · exact isDig_digitChar _ (by omega)

/-- All characters of a four-digit rendering are digits. -/
theorem natDigits4_mem_dig (n : Nat) : ∀ c ∈ natDigits4 n, isDig c = true := by
  intro c hc
  unfold natDigits4 at hc
  simp only [List.mem_cons, List.mem_singleton, List.not_mem_nil, or_false] at hc
  rcases hc with rfl | rfl | rfl | rfl
  · exact isDig_digitChar _ (by omega)
  · exact isDig_digitChar _ (by omega)
  · exact isDig_digitChar _ (by omega)
  · exact isDig_digitChar _ (by omega)

/-- The two-digit rendering of `n ≤ 99` reads back as `n`. -/
theorem natOfDigits_natDigits2 (n : Nat) (h : n ≤ 99) :
    natOfDigits (natDigits2 n) = n := by
  unfold natDigits2
  rw [natOfDigits_two, digitVal_digitChar _ (by omega), digitVal_digitChar _ (by omega)]
  omega

/-- The four-digit rendering of `n ≤ 9999` reads back as `n`. -/
theorem natOfDigits_natDigits4 (n : Nat) (h : n ≤ 9999) :
    natOfDigits (natDigits4 n) = n := by
  unfold natDigits4
  rw [natOfDigits_four, digitVal_digitChar _ (by omega), digitVal_digitChar _ (by omega),
    digitVal_digitChar _ (by omega), digitVal_digitChar _ (by omega)]
  omega

/-- A four-digit string's value is at most 9999. -/
theorem natOfDigits_le_of_four (p : List Char) (hd : p.all isDig = true)
    (hl : p.length = 4) : natOfDigits p ≤ 9999 := by
  match p, hl with
  | [a, b, c, d], _ =>
    simp only [List.all_cons, List.all_nil, Bool.and_eq_true, Bool.and_true] at hd
    obtain ⟨ha, hb, hc2, hd2⟩ := hd
    rw [natOfDigits_four]
    have := digitVal_le a ha
    have := digitVal_le b hb
    have := digitVal_le c hc2
    have := digitVal_le d hd2
    omega

/-- Rendering the value of a 1–2 digit string two-wide equals zero-padding
the string. -/
theorem natDigits2_of_digits (p : List Char) (hd : p.all isDig = true)
    (hl : p.length = 1 ∨ p.length = 2) :
    natDigits2 (natOfDigits p) = zfill 2 p := by
  match p, hl with
  | [a], _ =>
    simp only [List.all_cons, List.all_nil, Bool.and_true] at hd
    have hva := digitVal_le a hd
    rw [natOfDigits_one]
    unfold natDigits2
    have h1 : digitVal a / 10 % 10 = 0 := by omega
    have h2 : digitVal a % 10 = digitVal a := by omega
    rw [h1, h2, digitChar_digitVal a hd]
    have h0 : Nat.digitChar 0 = '0' := rfl
    rw [h0]
    have hplus := isDig_ne a '+' (by decide) hd
    have hminus := isDig_ne a '-' (by decide) hd
    unfold zfill
    simp [hplus, hminus]
  | [a, b], _ =>
    simp only [List.all_cons, List.all_nil, Bool.and_eq_true, Bool.and_true] at hd
    obtain ⟨ha, hb⟩ := hd
    have hva := digitVal_le a ha
    have hvb := digitVal_le b hb
    rw [natOfDigits_two]
    unfold natDigits2
    have h1 : (10 * digitVal a + digitVal b) / 10 % 10 = digitVal a := by omega
    have h2 : (10 * digitVal a + digitVal b) % 10 = digitVal b := by omega
    rw [h1, h2, digitChar_digitVal a ha, digitChar_digitVal b hb]
    unfold zfill
    rw [if_pos (by simp)]

/-- Rendering the value of a 4 digit string four-wide gives the string
back. -/
theorem natDigits4_of_digits (p : List Char) (hd : p.all isDig = true)
    (hl : p.length = 4) : natDigits4 (natOfDigits p) = p := by
  match p, hl with
  | [a, b, c, d], _ =>
    simp only [List.all_cons, List.all_nil, Bool.and_eq_true, Bool.and_true] at hd
    obtain ⟨ha, hb, hc2, hd2⟩ := hd
    have hva := digitVal_le a ha
    have hvb := digitVal_le b hb
    have hvc := digitVal_le c hc2
    have hvd := digitVal_le d hd2
    rw [natOfDigits_four]
    unfold natDigits4
    have h1 : (1000 * digitVal a + 100 * digitVal b + 10 * digitVal c + digitVal d)
        / 1000 % 10 = digitVal a := by omega
    have h2 : (1000 * digitVal a + 100 * digitVal b + 10 * digitVal c + digitVal d)
        / 100 % 10 = digitVal b := by omega
    have h3 : (1000 * digitVal a + 100 * digitVal b + 10 * digitVal c + digitVal d)
        / 10 % 10 = digitVal c := by omega
    have h4 : (1000 * digitVal a + 100 * digitVal b + 10 * digitVal c + digitVal d)
        % 10 = digitVal d := by omega
    rw [h1, h2, h3, h4, digitChar_digitVal a ha, digitChar_digitVal b hb,
      digitChar_digitVal c hc2, digitChar_digitVal d hd2]

/-- Splitting a separator-free list yields one field. -/
theorem splitSep_nosep (sep : Char) (p : List Char) (h : ∀ c ∈ p, ¬ c = sep) :
    splitSep sep p = [p] := by
  induction p with
  | nil => rfl
  | cons c rest ih =>
    conv_lhs => rw [splitSep]
    rw [if_neg (h c (List.mem_cons_self c rest)),
      ih fun x hx => h x (List.mem_cons_of_mem c hx)]

/-- Splitting peels off a separator-free first field. -/
theorem splitSep_append (sep : Char) (p q : List Char) (h : ∀ c ∈ p, ¬ c = sep) :
    splitSep sep (p ++ sep :: q) = p :: splitSep sep q := by
  induction p with
  | nil =>
    show splitSep sep (sep :: q) = [] :: splitSep sep q
    conv_lhs => rw [splitSep]
    rw [if_pos rfl]
  | cons c rest ih =>
    show splitSep sep (c :: (rest ++ sep :: q)) = (c :: rest) :: splitSep sep q
    conv_lhs => rw [splitSep]
    rw [if_neg (h c (List.mem_cons_self c rest)),
      ih fun x hx => h x (List.mem_cons_of_mem c hx)]

/-- The components guaranteed by a valid month field. -/
theorem validMonthField_parts (p : List Char) (h : validMonthField p = true) :
    p.all isDig = true ∧ (p.length = 1 ∨ p.length = 2) ∧
      1 ≤ natOfDigits p ∧ natOfDigits p ≤ 12 := by
  simp only [validMonthField, Bool.and_eq_true, decide_eq_true_eq] at h
  exact ⟨h.1.1, h.1.2, h.2.1, h.2.2⟩

/-- The components guaranteed by a valid day field. -/
theorem validDayField_parts (p : List Char) (h : validDayField p = true) :
    p.all isDig = true ∧ (p.length = 1 ∨ p.length = 2) ∧
      1 ≤ natOfDigits p ∧ natOfDigits p ≤ 31 := by
  simp only [validDayField, Bool.and_eq_true, decide_eq_true_eq] at h
  exact ⟨h.1.1, h.1.2, h.2.1, h.2.2⟩

/-- The components guaranteed by a valid year field. -/
theorem validYearField_parts (p : List Char) (h : validYearField p = true) :
    p.all isDig = true ∧ p.length = 4 ∧ 1 ≤ natOfDigits p := by
  simp only [validYearField, Bool.and_eq_true, decide_eq_true_eq] at h
  exact ⟨h.1.1, h.1.2, h.2⟩

/-- Parsing a formatted storage date recovers the date. -/
theorem strptime_ymd_formatYMD (y m dd : Nat)
    (hm1 : 1 ≤ m) (hm2 : m ≤ 12) (hd1 : 1 ≤ dd) (hd2 : dd ≤ 31)
    (hy1 : 1 ≤ y) (hy2 : y ≤ 9999)
    (hvd : validDate ⟨y, m, dd⟩ = true) :
    strptime .ymd (formatYMD ⟨y, m, dd⟩) = some ⟨y, m, dd⟩ := by
  have hsplit : splitSep '-' (formatYMD ⟨y, m, dd⟩).data =
      [natDigits4 y, natDigits2 m, natDigits2 dd] := by
    show splitSep '-' (natDigits4 y ++ '-' :: (natDigits2 m ++ '-' :: natDigits2 dd)) = _
    rw [splitSep_append '-' _ _
        fun c hc => isDig_ne c '-' (by decide) (natDigits4_mem_dig _ c hc),
      splitSep_append '-' _ _
        fun c hc => isDig_ne c '-' (by decide) (natDigits2_mem_dig _ c hc),
      splitSep_nosep '-' _
        fun c hc => isDig_ne c '-' (by decide) (natDigits2_mem_dig _ c hc)]
  have hY : validYearField (natDigits4 y) = true := by
    simp only [validYearField, Bool.and_eq_true, decide_eq_true_eq]
    refine ⟨⟨?_, rfl⟩, ?_⟩
    · rw [List.all_eq_true]
      exact fun c hc => natDigits4_mem_dig y c hc
    · rw [natOfDigits_natDigits4 y hy2]
      exact hy1
  have hM : validMonthField (natDigits2 m) = true := by
    simp only [validMonthField, Bool.and_eq_true, decide_eq_true_eq]
    refine ⟨⟨?_, Or.inr rfl⟩, ?_, ?_⟩
    · rw [List.all_eq_true]
      exact fun c hc => natDigits2_mem_dig m c hc
    · rw [natOfDigits_natDigits2 m (by omega)]
      exact hm1
    · rw [natOfDigits_natDigits2 m (by omega)]
      exact hm2
  have hD : validDayField (natDigits2 dd) = true := by
    simp only [validDayField, Bool.and_eq_true, decide_eq_true_eq]
    refine ⟨⟨?_, Or.inr rfl⟩, ?_, ?_⟩
    · rw [List.all_eq_true]
      exact fun c hc => natDigits2_mem_dig dd c hc
    · rw [natOfDigits_natDigits2 dd (by omega)]
      exact hd1
    · rw [natOfDigits_natDigits2 dd (by omega)]
      exact hd2
  unfold strptime
  simp only [hsplit, hY, hM, hD, Bool.and_self, if_true]
  simp only [natOfDigits_natDigits4 y hy2, natOfDigits_natDigits2 m (by omega : m ≤ 99),
    natOfDigits_natDigits2 dd (by omega : dd ≤ 99)]
  rw [if_pos hvd]

/-- What a successful `MM/DD/YYYY` parse guarantees about the input. -/
theorem strptime_mdy_parts (s : String) (d : Date) (h : strptime .mdy s = some d) :
    ∃ pm pd py, splitSep '/' s.data = [pm, pd, py] ∧
      validMonthField pm = true ∧ validDayField pd = true ∧ validYearField py = true ∧
      validDate d = true ∧ d = ⟨natOfDigits py, natOfDigits pm, natOfDigits pd⟩ := by
  unfold strptime at h
  rcases hsp : splitSep '/' s.data with _ | ⟨pm, _ | ⟨pd, _ | ⟨py, _ | ⟨z, rest⟩⟩⟩⟩ <;>
    rw [hsp] at h
  · exact absurd h (by simp)
  · exact absurd h (by simp)
  · exact absurd h (by simp)
  · refine ⟨pm, pd, py, rfl, ?_⟩
    replace h : (if (validMonthField pm && validDayField pd && validYearField py) = true
        then (if validDate ⟨natOfDigits py, natOfDigits pm, natOfDigits pd⟩ = true
          then some (⟨natOfDigits py, natOfDigits pm, natOfDigits pd⟩ : Date) else none)
        else none) = some d := h
    by_cases hf : (validMonthField pm && validDayField pd && validYearField py) = true
    · rw [if_pos hf] at h
      by_cases hvd : validDate ⟨natOfDigits py, natOfDigits pm, natOfDigits pd⟩ = true
      · rw [if_pos hvd] at h
        injection h with h
        simp only [Bool.and_eq_true] at hf
        exact ⟨hf.1.1, hf.1.2, hf.2, h ▸ hvd, h.symm⟩
      · rw [if_neg hvd] at h
        cases h
    · rw [if_neg hf] at h
      cases h
  · exact absurd h (by simp)

/-- C6: for every string that parses as a valid `MM/DD/YYYY` date,
converting it to `YYYY-MM-DD` storage form with `parse_date_safely` and
reformatting the storage form to `MM/DD/YYYY` display form with
`parse_date_to_display` yields the zero-padding of the original string:
the round trip is the identity modulo zero-padding of the month and day. -/
theorem C6_parse_display_round_trip :
    ∀ (s : String) (d : Date), strptime .mdy s = some d →
      (parse_date_safely s).bind (fun t => parse_date_to_display t .ymd) =
        some (formatMDY d) ∧
      padMDY s = some (formatMDY d) := by
  intro s d h
  obtain ⟨pm, pd, py, hsp, hm, hdd, hy, hvd, hde⟩ := strptime_mdy_parts s d h
  obtain ⟨hmall, hmlen, hm1, hm2⟩ := validMonthField_parts pm hm
  obtain ⟨hdall, hdlen, hd1, hd2⟩ := validDayField_parts pd hdd
  obtain ⟨hyall, hylen, hy1⟩ := validYearField_parts py hy
  have hy2 : natOfDigits py ≤ 9999 := natOfDigits_le_of_four py hyall hylen
  subst hde
  constructor
  · unfold parse_date_safely
    rw [h]
    show parse_date_to_display
      (formatYMD ⟨natOfDigits py, natOfDigits pm, natOfDigits pd⟩) .ymd = _
    unfold parse_date_to_display
    rw [strptime_ymd_formatYMD _ _ _ hm1 hm2 hd1 hd2 hy1 hy2 hvd]
    rfl
  · unfold padMDY
    rw [hsp]
    show some (⟨zfill 2 pm ++ '/' :: zfill 2 pd ++ '/' :: py⟩ : String) =
      some (formatMDY ⟨natOfDigits py, natOfDigits pm, natOfDigits pd⟩)
    unfold formatMDY
    rw [natDigits2_of_digits pm hmall hmlen, natDigits2_of_digits pd hdall hdlen,
      natDigits4_of_digits py hyall hylen]

/-- Witness for C6: `"3/5/2025"` stores as `"2025-03-05"`, displays back as
`"03/05/2025"`, which is exactly the zero-padded original. -/
theorem C6_witness :
    (parse_date_safely "3/5/2025").bind (fun t => parse_date_to_display t .ymd) =
      some (formatMDY ⟨2025, 3, 5⟩) ∧
    padMDY "3/5/2025" = some (formatMDY ⟨2025, 3, 5⟩) :=
  C6_parse_display_round_trip "3/5/2025" ⟨2025, 3, 5⟩ (by decide)

end Invoicing
